import Mathlib

/-!
Verification development for the ImproterAI pose-detection visual-effect
engines. The JavaScript sources (pose-visualizer.js, fireworks-system.js,
particle-system.js, smoke-system.js, sketch.js) are shallowly embedded:
numbers are modelled as rationals, p5.js primitives (random, sin, cos,
noise, millis, frameCount, mouse, canvas size) are supplied through an
explicit environment record, and every canvas primitive call is recorded
as an element of a draw-operation list. Randomness is modelled by a
stream `rand : Nat -> Rat` consumed at an explicitly threaded counter,
exactly in the order the JavaScript code calls `random()`.
-/

namespace ImproterAI

/-- A detected anatomical landmark: position and detection confidence. -/
structure Keypoint where
  x : ℚ
  y : ℚ
  confidence : ℚ
deriving DecidableEq, Repr

/-- One detected person for one frame: an ordered list of keypoints. -/
structure Pose where
  keypoints : List Keypoint
deriving DecidableEq, Repr

/-- An RGB triple as produced by the hexToRgb helpers (parseInt values). -/
structure Rgb where
  r : ℕ
  g : ℕ
  b : ℕ
deriving DecidableEq, Repr

/-- A 2D vector (p5.Vector with the operations the code uses). -/
structure Vec2 where
  x : ℚ
  y : ℚ
deriving DecidableEq, Repr

/-- Canvas primitives the engines emit. Each constructor records the
arguments of one JavaScript draw call (coordinates, diameter or weight,
fill or stroke color, alpha). `glowCircle` stands for the radial-gradient
arc of drawGlowingCircle. -/
inductive DrawOp where
  | circleFill (x y d : ℚ) (r g b : ℕ) (a : ℚ)
  | lineStroke (x1 y1 x2 y2 : ℚ) (r g b : ℕ) (a w : ℚ)
  | glowCircle (x y radius : ℚ) (r g b : ℕ) (a : ℚ)
deriving DecidableEq, Repr

/-- The ambient p5.js backend: the random stream (values in [0,1)),
the trigonometric and noise functions, wall-clock and frame counters,
mouse position and canvas size. All code reads these only through this
record, so every embedded function is a pure function of it. -/
structure Env where
  rand : ℕ → ℚ
  gaussQ : ℕ → ℚ
  sinQ : ℚ → ℚ
  cosQ : ℚ → ℚ
  sqrtQ : ℚ → ℚ
  noiseQ : ℚ → ℚ
  millisQ : ℚ
  frameCountQ : ℚ
  mouseXQ : ℚ
  widthQ : ℚ
  heightQ : ℚ
  twoPiQ : ℚ

/-- p5 random(a, b): one draw from the stream, scaled into [a, b). Returns
the value and the advanced stream counter. -/
def randRange (env : Env) (k : ℕ) (a b : ℚ) : ℚ × ℕ :=
  (a + env.rand k * (b - a), k + 1)

/-- JavaScript Math.floor of a rational, truncated to a natural number
(the code only floors nonnegative values, used as array indices). -/
def ratFloorNat (q : ℚ) : ℕ := (⌊q⌋ : ℤ).toNat

/-- Thread a counter through a list, left to right: the list analogue of
calling a counter-consuming function on every element of a JavaScript
array in a for-of loop. -/
def mapK (f : ℕ → α → β × ℕ) : ℕ → List α → List β × ℕ
  | k, [] => ([], k)
  | k, a :: as =>
    let (b, k1) := f k a
    let (bs, k2) := mapK f k1 as
    (b :: bs, k2)

/- ------------------------------------------------------------------
   Hex color parsing.
   pose-visualizer.js lines 169-178 (PoseVisualizer.hexToRgb, null on
   no match) and lines 20-25 / fireworks-system.js lines 31-36
   (Spark.hexToRgb, white on no match). All use the same regex
   /^#?([a-f\d]2)([a-f\d]2)([a-f\d]2)$/i and parseInt(_, 16).
   ------------------------------------------------------------------ -/

/-- Character class [a-f\d] of the regex, case-insensitive (character
codes: digits 48-57, a-f 97-102, A-F 65-70). -/
def isHexDigit (c : Char) : Bool :=
  decide ((48 ≤ c.toNat ∧ c.toNat ≤ 57) ∨ (97 ≤ c.toNat ∧ c.toNat ≤ 102) ∨
    (65 ≤ c.toNat ∧ c.toNat ≤ 70))

/-- parseInt value of one hex digit (0 on other characters; the regex
guarantees the argument is a hex digit wherever this is used). -/
def hexDigitVal (c : Char) : ℕ :=
  if 48 ≤ c.toNat ∧ c.toNat ≤ 57 then c.toNat - 48
  else if 97 ≤ c.toNat ∧ c.toNat ≤ 102 then c.toNat - 87
  else if 65 ≤ c.toNat ∧ c.toNat ≤ 70 then c.toNat - 55
  else 0

/-- The optional leading # of the regex (^#?). -/
def stripHash : List Char → List Char
  | '#' :: rest => rest
  | l => l

/-- Full-match semantics of the regex: after the optional #, exactly six
case-insensitive hex digits, captured in three groups of two, each group
read with parseInt(_, 16). -/
def hexMatch (s : String) : Option (ℕ × ℕ × ℕ) :=
  match stripHash s.data with
  | [c1, c2, c3, c4, c5, c6] =>
    if isHexDigit c1 && isHexDigit c2 && isHexDigit c3 &&
       isHexDigit c4 && isHexDigit c5 && isHexDigit c6 then
      some (16 * hexDigitVal c1 + hexDigitVal c2,
            16 * hexDigitVal c3 + hexDigitVal c4,
            16 * hexDigitVal c5 + hexDigitVal c6)
    else none
  | _ => none

namespace PoseVisualizer

/-- pose-visualizer.js lines 169-178: returns the RGB object on a match
and null (here: none) otherwise. -/
def hexToRgb (s : String) : Option Rgb :=
  match hexMatch s with
  | some (r, g, b) => some ⟨r, g, b⟩
  | none => none

end PoseVisualizer

namespace Spark

/-- pose-visualizer.js lines 20-25 (identically fireworks-system.js
lines 31-36): returns the RGB object on a match and white otherwise. -/
def hexToRgb (s : String) : Rgb :=
  match hexMatch s with
  | some (r, g, b) => ⟨r, g, b⟩
  | none => ⟨255, 255, 255⟩

end Spark

/- Spec-side reconstruction for the round-trip property (C9): format an
RGB triple back as six lowercase hex digits. -/

/-- Lowercase hex digit for a value below 16. -/
def toHexChar (n : ℕ) : Char :=
  if n < 10 then Char.ofNat (48 + n) else Char.ofNat (87 + n)

/-- Two lowercase hex digits of a byte. -/
def byteToHex (n : ℕ) : List Char := [toHexChar (n / 16), toHexChar (n % 16)]

/-- Six-digit lowercase reconstruction of an RGB triple. -/
def formatRgb (c : Rgb) : List Char := byteToHex c.r ++ byteToHex c.g ++ byteToHex c.b

/-- ASCII lowercasing of one character. -/
def lowerChar (c : Char) : Char :=
  if 65 ≤ c.toNat ∧ c.toNat ≤ 90 then Char.ofNat (c.toNat + 32) else c

/- ------------------------------------------------------------------
   PoseVisualizer: direct keypoint / skeleton / trail painting.
   pose-visualizer.js lines 215-276. The instance fields paintColor,
   paintSize and paintOpacity are passed explicitly.
   ------------------------------------------------------------------ -/

namespace PoseVisualizer

/-- pose-visualizer.js lines 215-225 (drawKeypoints): one filled circle
per keypoint whose confidence is strictly above the threshold. When
hexToRgb returns null the JavaScript fill call would fault; no draw is
recorded for that (unreachable with the valid default colors). -/
def drawKeypoints (pose : Pose) (minConfidence : ℚ)
    (paintColor : String) (paintSize paintOpacity : ℚ) : List DrawOp :=
  pose.keypoints.flatMap fun keypoint =>
    if minConfidence < keypoint.confidence then
      match hexToRgb paintColor with
      | some rgb => [DrawOp.circleFill keypoint.x keypoint.y paintSize rgb.r rgb.g rgb.b paintOpacity]
      | none => []
    else []

/-- pose-visualizer.js lines 227-241 (drawSkeleton): one stroked line per
connection whose two endpoints both exceed the threshold. Out-of-range
connection indices would fault in JavaScript (undefined.confidence); they
are modelled as producing no draw. -/
def drawSkeleton (pose : Pose) (connections : List (ℕ × ℕ)) (minConfidence : ℚ)
    (paintColor : String) (paintSize paintOpacity : ℚ) : List DrawOp :=
  connections.flatMap fun conn =>
    match pose.keypoints.get? conn.1, pose.keypoints.get? conn.2 with
    | some pointA, some pointB =>
      if minConfidence < pointA.confidence ∧ minConfidence < pointB.confidence then
        match hexToRgb paintColor with
        | some rgb => [DrawOp.lineStroke pointA.x pointA.y pointB.x pointB.y
            rgb.r rgb.g rgb.b paintOpacity (paintSize / 2)]
        | none => []
      else []
    | _, _ => []

/-- One buffered trail entry: the filtered keypoint positions of one frame. -/
abbrev Snap := List (ℚ × ℚ)

/-- pose-visualizer.js lines 250-256: the currentKeypoints array, positions
of the keypoints strictly above the threshold, in keypoint order. -/
def trailSnapshot (pose : Pose) (minConfidence : ℚ) : Snap :=
  (pose.keypoints.filter fun keypoint => decide (minConfidence < keypoint.confidence)).map
    fun keypoint => (keypoint.x, keypoint.y)

/-- Trail length cap, pose-visualizer.js line 261. -/
def trailCap : ℕ := 15

/-- pose-visualizer.js lines 258-263: push the snapshot, then shift the
oldest entry off when the buffer exceeds the cap. -/
def trailPush (buf : List Snap) (s : Snap) : List Snap :=
  let b := buf ++ [s]
  if trailCap < b.length then b.tail else b

/-- A sequence of drawTrails calls on one pose slot, buffer evolution only. -/
def trailPushAll (buf : List Snap) (snaps : List Snap) : List Snap :=
  snaps.foldl trailPush buf

/-- pose-visualizer.js lines 265-276: the draw loop over the post-append
buffer, with t running from 1 to length - 1 and alpha (t / length) *
paintOpacity. -/
def drawTrailsOps (buf : List Snap) (paintColor : String) (paintSize paintOpacity : ℚ) : List DrawOp :=
  ((List.range buf.length).drop 1).flatMap fun t =>
    (buf.getD t []).flatMap fun p =>
      match hexToRgb paintColor with
      | some rgb => [DrawOp.circleFill p.1 p.2 (paintSize * (1/2)) rgb.r rgb.g rgb.b
          ((t : ℚ) / (buf.length : ℚ) * paintOpacity)]
      | none => []

/-- pose-visualizer.js lines 243-276 (drawTrails) for one pose slot:
append the current filtered snapshot, cap the buffer, then draw.
Returns the new buffer and the emitted draw operations. -/
def drawTrails (buf : List Snap) (pose : Pose) (minConfidence : ℚ)
    (paintColor : String) (paintSize paintOpacity : ℚ) : List Snap × List DrawOp :=
  let buf2 := trailPush buf (trailSnapshot pose minConfidence)
  (buf2, drawTrailsOps buf2 paintColor paintSize paintOpacity)

/- ------------------------------------------------------------------
   Hands-up growth accumulator, pose-visualizer.js lines 136-140 and
   311-318.
   ------------------------------------------------------------------ -/

/-- Constructor value growthSpeed = 0.02 (line 140). -/
def growthSpeed : ℚ := 1/50

/-- Constructor value maxGrowthMultiplier = 3.0 (line 139). -/
def maxGrowthMultiplier : ℚ := 3

/-- Constructor value poseMovementThreshold = 15 (line 134). -/
def poseMovementThreshold : ℚ := 15

/-- Constructor value fireworksInterval = 320 (line 146). -/
def fireworksInterval : ℚ := 320

/-- Constructor palette (lines 124-131). -/
def colorPalette : List String :=
  ["#FF006E", "#FFBE0B", "#3A86FF", "#8338EC", "#FB5607", "#00F5D4"]

/-- pose-visualizer.js lines 311-318: one application of the hands-up
growth update. While the gesture holds: add growthSpeed and clamp at
maxGrowthMultiplier; otherwise decay geometrically by 0.95. -/
def growthStep (handsUp : Bool) (g : ℚ) : ℚ :=
  if handsUp then min (g + growthSpeed) maxGrowthMultiplier else g * (19/20)

/-- The growth accumulator after a sequence of applications (one per
drawn keypoint per frame, with the gesture flag of that frame). -/
def growthRun (g : ℚ) (bs : List Bool) : ℚ :=
  bs.foldl (fun acc b => growthStep b acc) g

end PoseVisualizer

/- ------------------------------------------------------------------
   Fireworks (overlay variant), pose-visualizer.js lines 8-111:
   Spark, Firework, FireworksManager.
   ------------------------------------------------------------------ -/

/-- pose-visualizer.js lines 8-65. All fields of the JavaScript object. -/
structure Spark where
  pos : Vec2
  prev : Vec2
  vel : Vec2
  life : ℚ
  decay : ℚ
  size : ℚ
  color : Rgb
deriving DecidableEq, Repr

namespace Spark

/-- Constructor (lines 9-17): p5.Vector.fromAngle(angle).mult(speed),
life 255, decay = random(3, 6), size = random(3.5, 7). -/
def create (env : Env) (k : ℕ) (x y angle speed : ℚ) (colorHex : String) : Spark × ℕ :=
  let (decay, k1) := randRange env k 3 6
  let (size, k2) := randRange env k1 (7/2) 7
  ({ pos := ⟨x, y⟩
     prev := ⟨x, y⟩
     vel := ⟨env.cosQ angle * speed, env.sinQ angle * speed⟩
     life := 255
     decay := decay
     size := size
     color := Spark.hexToRgb colorHex }, k2)

/-- Lines 27-44 (update): drag 0.992, gravity 0.07, jitter
random(-0.05, 0.05) and random(-0.03, 0.03), integrate position, and
fade life by decay * 0.7. -/
def update (env : Env) (k : ℕ) (s : Spark) : Spark × ℕ :=
  let prev := s.pos
  let vel1 : Vec2 := ⟨s.vel.x * (992/1000), s.vel.y * (992/1000) + 7/100⟩
  let (jx, k1) := randRange env k (-(1/20)) (1/20)
  let (jy, k2) := randRange env k1 (-(3/100)) (3/100)
  let vel2 : Vec2 := ⟨vel1.x + jx, vel1.y + jy⟩
  ({ s with
      prev := prev
      vel := vel2
      pos := ⟨s.pos.x + vel2.x, s.pos.y + vel2.y⟩
      life := s.life - s.decay * (7/10) }, k2)

/-- Lines 62-64. -/
def isDead (s : Spark) : Bool := decide (s.life ≤ 0)

/-- Lines 46-60 (draw): the trail line between prev and pos, then the
core circle, with the flicker factor. -/
def draw (env : Env) (s : Spark) : List DrawOp :=
  let flicker := 7/10 + 3/10 * env.sinQ (env.frameCountQ * (4/10) + s.pos.x * (2/100))
  [DrawOp.lineStroke s.prev.x s.prev.y s.pos.x s.pos.y
     s.color.r s.color.g s.color.b (s.life * (1/2) * flicker) (s.size * (6/10)),
   DrawOp.circleFill s.pos.x s.pos.y (s.size * (13/10))
     s.color.r s.color.g s.color.b (s.life * flicker)]

end Spark

/- A Firework is its sparks array (pose-visualizer.js line 69). -/

namespace Firework

/-- Number of sparks per burst (line 71). -/
def sparkCount : ℕ := 90

/-- Constructor (lines 68-77): 90 sparks arranged radially with angular
jitter random(-0.03, 0.03) and speed random(2.5, 6.5). -/
def create (env : Env) (k : ℕ) (x y : ℚ) (colorHex : String) : List Spark × ℕ :=
  (List.range sparkCount).foldl
    (fun (acc : List Spark × ℕ) i =>
      let (jit, k1) := randRange env acc.2 (-(3/100)) (3/100)
      let ang := env.twoPiQ * (i : ℚ) / (sparkCount : ℚ) + jit
      let (sp, k2) := randRange env k1 (5/2) (13/2)
      let (s, k3) := Spark.create env k2 x y ang sp colorHex
      (acc.1 ++ [s], k3))
    ([], k)

/-- Lines 78-81 (update): update every spark, then drop the dead ones. -/
def update (env : Env) (k : ℕ) (sparks : List Spark) : List Spark × ℕ :=
  let (updated, k1) := mapK (Spark.update env) k sparks
  (updated.filter (fun s => !s.isDead), k1)

/-- Lines 82-88 (draw). -/
def draw (env : Env) (sparks : List Spark) : List DrawOp :=
  sparks.flatMap (Spark.draw env)

/-- Lines 89-91: a burst is dead when its sparks array is empty. -/
def isDead (sparks : List Spark) : Bool := sparks.length == 0

/-- n successive update() calls on one burst. -/
def iter (env : Env) : ℕ → ℕ → List Spark → List Spark × ℕ
  | 0, k, sparks => (sparks, k)
  | n + 1, k, sparks =>
    let (s1, k1) := update env k sparks
    iter env n k1 s1

end Firework

namespace FireworksManager

/-- pose-visualizer.js lines 98-100 (trigger): push one new burst. -/
def trigger (env : Env) (k : ℕ) (fireworks : List (List Spark)) (x y : ℚ)
    (colorHex : String) : List (List Spark) × ℕ :=
  let (burst, k1) := Firework.create env k x y colorHex
  (fireworks ++ [burst], k1)

/-- Lines 101-107 (updateAndDraw): update and draw every burst in order,
then drop the dead bursts. -/
def updateAndDraw (env : Env) (k : ℕ) (fireworks : List (List Spark)) :
    List (List Spark) × List DrawOp × ℕ :=
  let (pairs, k1) := mapK
    (fun k f =>
      let (f1, k2) := Firework.update env k f
      ((f1, Firework.draw env f1), k2)) k fireworks
  ((pairs.map Prod.fst).filter (fun f => !Firework.isDead f),
   pairs.flatMap Prod.snd, k1)

end FireworksManager

/- ------------------------------------------------------------------
   Fireworks (pooled standalone variant), fireworks-system.js.
   ------------------------------------------------------------------ -/

/-- fireworks-system.js lines 8-18: pooled spark with an active flag. -/
structure PooledSpark where
  pos : Vec2
  prev : Vec2
  vel : Vec2
  life : ℚ
  decay : ℚ
  size : ℚ
  color : Rgb
  active : Bool
deriving DecidableEq, Repr

namespace PooledSpark

/-- Constructor (lines 9-18): everything zeroed, white, inactive. -/
def new : PooledSpark :=
  { pos := ⟨0, 0⟩
    prev := ⟨0, 0⟩
    vel := ⟨0, 0⟩
    life := 0
    decay := 0
    size := 0
    color := ⟨255, 255, 255⟩
    active := false }

/-- Lines 20-29 (init): reset position, life 255, decay random(3, 6),
given size, parsed color, active. -/
def init (env : Env) (k : ℕ) (s : PooledSpark) (x y angle speed size : ℚ)
    (colorHex : String) : PooledSpark × ℕ :=
  let (decay, k1) := randRange env k 3 6
  ({ s with
      pos := ⟨x, y⟩
      prev := ⟨x, y⟩
      vel := ⟨env.cosQ angle * speed, env.sinQ angle * speed⟩
      life := 255
      decay := decay
      size := size
      color := Spark.hexToRgb colorHex
      active := true }, k1)

/-- Lines 38-50 (update): inactive sparks return immediately (consuming
no randomness); active ones run the same physics as the overlay spark
and deactivate once life reaches 0. -/
def update (env : Env) (k : ℕ) (s : PooledSpark) : PooledSpark × ℕ :=
  if !s.active then (s, k)
  else
    let prev := s.pos
    let vel1 : Vec2 := ⟨s.vel.x * (992/1000), s.vel.y * (992/1000) + 7/100⟩
    let (jx, k1) := randRange env k (-(1/20)) (1/20)
    let (jy, k2) := randRange env k1 (-(3/100)) (3/100)
    let vel2 : Vec2 := ⟨vel1.x + jx, vel1.y + jy⟩
    let life1 := s.life - s.decay * (7/10)
    ({ s with
        prev := prev
        vel := vel2
        pos := ⟨s.pos.x + vel2.x, s.pos.y + vel2.y⟩
        life := life1
        active := if life1 ≤ 0 then false else s.active }, k2)

/-- Lines 52-65 (draw): nothing when inactive, else trail plus core. -/
def draw (env : Env) (s : PooledSpark) : List DrawOp :=
  if !s.active then []
  else
    let flicker := 7/10 + 3/10 * env.sinQ (env.frameCountQ * (4/10) + s.pos.x * (2/100))
    [DrawOp.lineStroke s.prev.x s.prev.y s.pos.x s.pos.y
       s.color.r s.color.g s.color.b (s.life * (1/2) * flicker) (s.size * (6/10)),
     DrawOp.circleFill s.pos.x s.pos.y (s.size * (13/10))
       s.color.r s.color.g s.color.b (s.life * flicker)]

end PooledSpark

/-- fireworks-system.js lines 98-110: fixed array of pre-allocated sparks
with a rotating cursor. The pool array itself is never reassigned after
construction; get() hands out the slot at the cursor and advances the
cursor modulo the pool length. -/
structure SparkPool where
  pool : List PooledSpark
  cursor : ℕ
deriving DecidableEq, Repr

namespace SparkPool

/-- Constructor (lines 99-103), default size 1200. -/
def create (size : ℕ) : SparkPool :=
  { pool := List.replicate size PooledSpark.new, cursor := 0 }

/-- Lines 105-109 (get): return the slot at the cursor (the JavaScript
object reference is modelled by the slot index) and advance the cursor;
`cursor %= pool.length` brings it back in range. -/
def get (p : SparkPool) : ℕ × SparkPool :=
  (p.cursor, { p with cursor := (p.cursor + 1) % p.pool.length })

/-- n consecutive get() calls, collecting the handed-out slot indices. -/
def getMany : ℕ → SparkPool → List ℕ × SparkPool
  | 0, p => ([], p)
  | n + 1, p =>
    let (i, p1) := get p
    let (is, p2) := getMany n p1
    (i :: is, p2)

end SparkPool

namespace PooledFirework

/-- fireworks-system.js lines 68-79 (Firework constructor): 90 sparks
obtained from the pool and re-initialised. Per spark the randomness is
consumed in source order: angular jitter, speed, size random(3.5, 7),
then the decay inside init. The burst is modelled as the list of
initialised spark values; the pool contributes the slot allocator. -/
def create (env : Env) (k : ℕ) (x y : ℚ) (colorHex : String) (pool : SparkPool) :
    List PooledSpark × SparkPool × ℕ :=
  (List.range Firework.sparkCount).foldl
    (fun (acc : List PooledSpark × SparkPool × ℕ) i =>
      let (sparks, pool0, k0) := acc
      let (jit, k1) := randRange env k0 (-(3/100)) (3/100)
      let angle := env.twoPiQ * (i : ℚ) / (Firework.sparkCount : ℚ) + jit
      let (speed, k2) := randRange env k1 (5/2) (13/2)
      let (size, k3) := randRange env k2 (7/2) 7
      let (slot, pool1) := SparkPool.get pool0
      let base := pool1.pool.getD slot PooledSpark.new
      let (s, k4) := PooledSpark.init env k3 base x y angle speed size colorHex
      (sparks ++ [s], pool1, k4))
    ([], pool, k)

/-- Lines 81-84 (update): update every spark, keep the active ones. -/
def update (env : Env) (k : ℕ) (sparks : List PooledSpark) : List PooledSpark × ℕ :=
  let (updated, k1) := mapK (PooledSpark.update env) k sparks
  (updated.filter (fun s => s.active), k1)

/-- Lines 86-91 (draw). -/
def draw (env : Env) (sparks : List PooledSpark) : List DrawOp :=
  sparks.flatMap (PooledSpark.draw env)

/-- Lines 93-95. -/
def isDead (sparks : List PooledSpark) : Bool := sparks.length == 0

end PooledFirework

namespace FireworksSystem

/-- fireworks-system.js lines 151-157 (updateAndDraw): update and draw
every burst, then drop the dead ones. -/
def updateAndDraw (env : Env) (k : ℕ) (fireworks : List (List PooledSpark)) :
    List (List PooledSpark) × List DrawOp × ℕ :=
  let (pairs, k1) := mapK
    (fun k f =>
      let (f1, k2) := PooledFirework.update env k f
      ((f1, PooledFirework.draw env f1), k2)) k fireworks
  ((pairs.map Prod.fst).filter (fun f => !PooledFirework.isDead f),
   pairs.flatMap Prod.snd, k1)

end FireworksSystem

/- ------------------------------------------------------------------
   Noise-driven paint particle system. The engine sketch.js drives is
   the revision staged in public/smoke-system.js lines 463-803: that is
   the only revision whose ParticleSystem has the three-argument
   emitFromPose(pose, connections, minConfidence) (line 699) and the
   setPaintingIntensity / setParticleCount / setParticleSize handlers
   (lines 778-802) that public/sketch.js calls. The earlier
   particle-system.js differs only in the physics constants (life decay
   0.015 and friction 0.98 instead of 0.003 and 0.995) and in the
   emitter layout; the pooling code is identical in both.
   ------------------------------------------------------------------ -/

/-- smoke-system.js lines 464-481: a pooled paint particle. The color is
assigned at emission time (line 607); before that the JavaScript field is
undefined, modelled here by the white default. -/
structure PParticle where
  x : ℚ
  y : ℚ
  vx : ℚ
  vy : ℚ
  life : ℚ
  size : ℚ
  active : Bool
  noiseOffsetX : ℚ
  noiseOffsetY : ℚ
  noiseScale : ℚ
  noiseStrength : ℚ
  color : Rgb
deriving DecidableEq, Repr

namespace PParticle

/-- Lines 469-481 (reset, called by the constructor). -/
def new : PParticle :=
  { x := 0
    y := 0
    vx := 0
    vy := 0
    life := 0
    size := 0
    active := false
    noiseOffsetX := 0
    noiseOffsetY := 0
    noiseScale := 1/100
    noiseStrength := 1/2
    color := ⟨255, 255, 255⟩ }

/-- Lines 483-499 (init): place at (x, y), life 1, active, random noise
offsets random(1000) and randomised noise parameters. -/
def init (env : Env) (k : ℕ) (p : PParticle) (x y vx vy size : ℚ) : PParticle × ℕ :=
  let (offX, k1) := randRange env k 0 1000
  let (offY, k2) := randRange env k1 0 1000
  let (scale, k3) := randRange env k2 (5/1000) (2/100)
  let (strength, k4) := randRange env k3 (3/10) 1
  ({ p with
      x := x
      y := y
      vx := vx
      vy := vy
      life := 1
      size := size
      active := true
      noiseOffsetX := offX
      noiseOffsetY := offY
      noiseScale := scale
      noiseStrength := strength }, k4)

/-- Lines 501-530 (update): inactive particles return immediately; active
ones gain a Perlin-noise force, integrate position, apply friction 0.995,
decay life by 0.003 and deactivate at life 0. -/
def update (env : Env) (p : PParticle) : PParticle :=
  if !p.active then p
  else
    let noiseX := env.noiseQ p.noiseOffsetX - 1/2
    let noiseY := env.noiseQ p.noiseOffsetY - 1/2
    let vx1 := p.vx + noiseX * p.noiseStrength
    let vy1 := p.vy + noiseY * p.noiseStrength
    let x1 := p.x + vx1
    let y1 := p.y + vy1
    let life1 := p.life - 3/1000
    { p with
        noiseOffsetX := p.noiseOffsetX + p.noiseScale
        noiseOffsetY := p.noiseOffsetY + p.noiseScale
        vx := vx1 * (995/1000)
        vy := vy1 * (995/1000)
        x := x1
        y := y1
        life := life1
        active := if life1 ≤ 0 then false else p.active }

/-- Lines 532-544 (draw): a circle shrinking and fading with life. -/
def draw (p : PParticle) : List DrawOp :=
  if !p.active then []
  else [DrawOp.circleFill p.x p.y (p.size * p.life) p.color.r p.color.g p.color.b (p.life * 255)]

end PParticle

/-- smoke-system.js lines 548-582 (identical in particle-system.js lines
124-157): the emitter state that getParticle touches. particlePool is
the fixed arena of pre-allocated particles (JavaScript object references
are modelled as arena indices); particles is the array of indices of
currently tracked (pushed) particles, oldest first. -/
structure ParticleEmitter where
  particlePool : List PParticle
  particles : List ℕ
deriving DecidableEq, Repr

namespace ParticleEmitter

/-- Lines 568-582 (getParticle, the same code in both revisions): return
the first inactive pool slot; if
none is inactive, shift the oldest tracked particle, deactivate it and
return it; with an empty pool and no tracked particles, return null.
No path ever allocates a new particle or changes the pool length. -/
def getParticle (e : ParticleEmitter) : Option ℕ × ParticleEmitter :=
  match e.particlePool.findIdx? (fun p => !p.active) with
  | some i => (some i, e)
  | none =>
    match e.particles with
    | i :: rest =>
      let old := e.particlePool.getD i PParticle.new
      (some i, { e with
                  particlePool := e.particlePool.set i { old with active := false }
                  particles := rest })
    | [] => (none, e)

/-- Lines 624-635 (update): update every tracked particle, then remove
the inactive ones (the backwards splice loop is exactly a filter). This
is the evolution of the particles array, with the tracked particles
taken by value. -/
def updateList (env : Env) (particles : List PParticle) : List PParticle :=
  (particles.map (PParticle.update env)).filter (fun p => p.active)

end ParticleEmitter

namespace ParticleSystem

/-- smoke-system.js lines 720-726 (update): update every emitter.
The system is modelled by the per-emitter tracked-particle lists. -/
def update (env : Env) (emitters : List (List PParticle)) : List (List PParticle) :=
  emitters.map (ParticleEmitter.updateList env)

/-- Lines 728-734 (draw). -/
def draw (emitters : List (List PParticle)) : List DrawOp :=
  emitters.flatMap fun ps => ps.flatMap PParticle.draw

end ParticleSystem

/- ------------------------------------------------------------------
   Smoke plume system, smoke-system.js lines 138-424 (the canonical
   revision with movement-driven sizing and wind).
   ------------------------------------------------------------------ -/

/-- smoke-system.js lines 143-148. -/
def warmColors : List (ℕ × ℕ × ℕ) :=
  [(255, 150, 100), (255, 200, 100), (255, 255, 150), (255, 255, 255)]

/-- smoke-system.js lines 150-165. -/
structure SmokeParticle where
  position : Vec2
  velocity : Vec2
  acceleration : Vec2
  lifespan : ℚ
  maxLifespan : ℚ
  size : ℚ
  baseSize : ℚ
  colorIndex : ℕ
deriving DecidableEq, Repr

namespace SmokeParticle

/-- Constructor (lines 151-165): Gaussian initial velocity with upward
bias, lifespan 100. -/
def create (env : Env) (k : ℕ) (x y size : ℚ) (colorIndex : ℕ) : SmokeParticle × ℕ :=
  let vx := 0 + env.gaussQ k * (3/10)
  let vy := -1 + env.gaussQ (k + 1) * (3/10)
  ({ position := ⟨x, y⟩
     velocity := ⟨vx, vy⟩
     acceleration := ⟨0, 0⟩
     lifespan := 100
     maxLifespan := 100
     size := size
     baseSize := size
     colorIndex := colorIndex }, k + 2)

/-- Lines 196-198 (applyForce): accumulate into the acceleration. -/
def applyForce (f : Vec2) (p : SmokeParticle) : SmokeParticle :=
  { p with acceleration := ⟨p.acceleration.x + f.x, p.acceleration.y + f.y⟩ }

/-- Lines 201-206 (update): integrate velocity and position, fade the
lifespan by 2, clear the acceleration. -/
def update (p : SmokeParticle) : SmokeParticle :=
  let v1 : Vec2 := ⟨p.velocity.x + p.acceleration.x, p.velocity.y + p.acceleration.y⟩
  { p with
      velocity := v1
      position := ⟨p.position.x + v1.x, p.position.y + v1.y⟩
      lifespan := p.lifespan - 2
      acceleration := ⟨0, 0⟩ }

/-- Lines 174-193 (show): warm color and size derived from the lifespan. -/
def show' (p : SmokeParticle) : List DrawOp :=
  let lifeRatio := p.lifespan / p.maxLifespan
  let colorIndex := ratFloorNat ((1 - lifeRatio) * 2)
  let currentColor := warmColors.getD (min colorIndex 2) (255, 255, 255)
  let sizeMultiplier := 4/10 + lifeRatio * (12/10)
  let currentSize := min (p.baseSize * sizeMultiplier) 60
  [DrawOp.circleFill p.position.x p.position.y currentSize
     currentColor.1 currentColor.2.1 currentColor.2.2 p.lifespan]

/-- Lines 209-211: dead strictly below zero lifespan. -/
def isDead (p : SmokeParticle) : Bool := decide (p.lifespan < 0)

end SmokeParticle

namespace SmokeSystem

/-- smoke-system.js lines 361-365 (applyForce): apply a force to every
particle. -/
def applyForce (f : Vec2) (particles : List SmokeParticle) : List SmokeParticle :=
  particles.map (SmokeParticle.applyForce f)

/-- Lines 368-376 (run): apply the internal wind to every particle, run
it (update then show), then drop the dead particles. -/
def run (currentWind : Vec2) (particles : List SmokeParticle) :
    List SmokeParticle × List DrawOp :=
  let pairs := particles.map fun p =>
    let p1 := SmokeParticle.update (SmokeParticle.applyForce currentWind p)
    (p1, SmokeParticle.show' p1)
  ((pairs.map Prod.fst).filter (fun p => !SmokeParticle.isDead p),
   pairs.flatMap Prod.snd)

end SmokeSystem

/- ------------------------------------------------------------------
   PoseVisualizer mutable state, growing circles and the visualize
   dispatch, pose-visualizer.js lines 114-213 and 278-569.
   ------------------------------------------------------------------ -/

/-- Pointwise update of a function-modelled JavaScript array. -/
def setF (f : ℕ → α) (i : ℕ) (v : α) : ℕ → α :=
  fun j => if j = i then v else f j

/-- The mutable instance state of PoseVisualizer (constructor lines
115-150). JavaScript sparse arrays indexed by pose slot or keypoint
index are modelled as total functions with the never-assigned entries
mapped to the empty or missing value; constructor constants that are
never reassigned (palette, thresholds, speeds) are top-level
definitions. The undefined _fwAlt starts as 0 because
(undefined || 0) ^ 1 = 1 on first use. -/
structure VisState where
  paintMode : String
  paintColor : String
  paintSize : ℚ
  paintOpacity : ℚ
  poseTrails : ℕ → List PoseVisualizer.Snap
  poseColors : ℕ → ℕ → Option String
  poseLastPositions : ℕ → ℕ → Option Vec2
  poseStillnessTime : ℕ → ℚ
  handsUpGrowth : ℚ
  allHandsUpTime : ℚ
  fireworks : List (List Spark)
  fireworksActiveUntil : ℚ
  fireworksCooldown : ℚ
  fwAlt : ℕ

namespace PoseVisualizer

/-- Constructor values, pose-visualizer.js lines 115-150. -/
def init : VisState :=
  { paintMode := "keypoints"
    paintColor := "#ff0000"
    paintSize := 10
    paintOpacity := 80
    poseTrails := fun _ => []
    poseColors := fun _ _ => none
    poseLastPositions := fun _ _ => none
    poseStillnessTime := fun _ => 0
    handsUpGrowth := 0
    allHandsUpTime := 0
    fireworks := []
    fireworksActiveUntil := 0
    fireworksCooldown := 0
    fwAlt := 0 }

/-- Lines 341-343 (getRandomColor): a uniformly random palette entry.
For any stream value in [0,1) the index is in range, so the getD
default is immaterial. -/
def getRandomColor (env : Env) (k : ℕ) : String × ℕ :=
  (colorPalette.getD (ratFloorNat (env.rand k * (colorPalette.length : ℚ))) "#FF006E", k + 1)

/-- Lines 346-367 (checkHandsUp): false when the nose confidence is
strictly below the threshold (note: below, not below-or-equal); each
wrist counts when its confidence strictly exceeds the threshold and it
sits above the nose; true when at least one hand is up. Missing
keypoints would fault in JavaScript; modelled as no gesture. -/
def checkHandsUp (pose : Pose) (minConfidence : ℚ) : Bool :=
  match pose.keypoints.get? 0, pose.keypoints.get? 9, pose.keypoints.get? 10 with
  | some nose, some leftWrist, some rightWrist =>
    if nose.confidence < minConfidence then false
    else
      let c1 : ℕ := if minConfidence < leftWrist.confidence ∧ leftWrist.y < nose.y then 1 else 0
      let c2 : ℕ := if minConfidence < rightWrist.confidence ∧ rightWrist.y < nose.y then 1 else 0
      decide (0 < c1 + c2)
  | _, _, _ => false

/-- The five core landmarks tracked for movement (line 444). -/
def trackingKeypoints : List ℕ := [0, 5, 6, 11, 12]

/-- Lines 486-568: the fireworks trigger block at the end of
updateMovementTracking, entered only in fireworks paint mode. Threads
the sustain window, the cadence cooldown, the alternating-hand bit and
the burst list. -/
def fireworksTrigger (env : Env) (k : ℕ) (st : VisState) (pose : Pose)
    (minConfidence avgMovement : ℚ) : VisState × ℕ :=
  match pose.keypoints.get? 9, pose.keypoints.get? 10,
        pose.keypoints.get? 5, pose.keypoints.get? 6 with
  | some lw, some rw, some ls, some rs =>
    if minConfidence < lw.confidence ∧ minConfidence < rw.confidence ∧
       minConfidence < ls.confidence ∧ minConfidence < rs.confidence then
      let shoulderY := (ls.y + rs.y) / 2
      let handsUp := decide (lw.y < shoulderY - 10) && decide (rw.y < shoulderY - 10)
      let st :=
        if (decide (poseMovementThreshold * (13/10) < avgMovement) && handsUp) ||
           (handsUp && decide (1000 < env.millisQ - st.fireworksCooldown)) then
          { st with fireworksActiveUntil := env.millisQ + 2500 }
        else st
      if env.millisQ < st.fireworksActiveUntil then
        if fireworksInterval < env.millisQ - st.fireworksCooldown then
          let alt := st.fwAlt ^^^ 1
          let st := { st with fwAlt := alt }
          let (c1, k1) := getRandomColor env k
          let (fw1, k2) :=
            if alt = 0 then FireworksManager.trigger env k1 st.fireworks lw.x lw.y c1
            else FireworksManager.trigger env k1 st.fireworks rw.x rw.y c1
          let st := { st with fireworks := fw1 }
          let (st, k3) :=
            match pose.keypoints.get? 0 with
            | some head =>
              if minConfidence < head.confidence then
                let (r, k3a) := (env.rand k2, k2 + 1)
                if r < 1/4 then
                  let (c2, k3b) := getRandomColor env k3a
                  let (fw2, k3c) := FireworksManager.trigger env k3b st.fireworks head.x (head.y - 40) c2
                  ({ st with fireworks := fw2 }, k3c)
                else (st, k3a)
              else (st, k2)
            | none => (st, k2)
          let (st, k4) :=
            match pose.keypoints.get? 11, pose.keypoints.get? 12 with
            | some hipL, some hipR =>
              if minConfidence < hipL.confidence ∧ minConfidence < hipR.confidence then
                let (r, k4a) := (env.rand k3, k3 + 1)
                if r < 3/20 then
                  let torso : Vec2 := ⟨(hipL.x + hipR.x) / 2, (hipL.y + hipR.y) / 2⟩
                  (List.range 4).foldl
                    (fun (acc : VisState × ℕ) ringI =>
                      let ang := env.twoPiQ * (ringI : ℚ) / 4
                      let rx := torso.x + env.cosQ ang * 50
                      let ry := torso.y + env.sinQ ang * 50
                      let (c3, kb) := getRandomColor env acc.2
                      let (fw3, kc) := FireworksManager.trigger env kb acc.1.fireworks rx ry c3
                      ({ acc.1 with fireworks := fw3 }, kc))
                    (st, k4a)
                else (st, k4a)
              else (st, k3)
            | _, _ => (st, k3)
          ({ st with fireworksCooldown := env.millisQ }, k4)
        else (st, k)
      else (st, k)
    else (st, k)
  | _, _, _, _ => (st, k)

/-- Lines 439-569 (updateMovementTracking): accumulate the frame-to-frame
displacement of the confident core landmarks, update the per-slot last
positions and the stillness timer, stochastically recolor one keypoint
under movement, and finally run the fireworks trigger block. -/
def updateMovementTracking (env : Env) (k : ℕ) (st : VisState) (pose : Pose)
    (poseIndex : ℕ) (minConfidence : ℚ) : VisState × ℕ :=
  let start : ℚ × ℕ × (ℕ → Option Vec2) := (0, 0, st.poseLastPositions poseIndex)
  let loopRes := (List.range trackingKeypoints.length).foldl
    (fun (acc : ℚ × ℕ × (ℕ → Option Vec2)) i =>
      let (tot, valid, lastPos) := acc
      let idx := trackingKeypoints.getD i 0
      match pose.keypoints.get? idx with
      | some kp =>
        if minConfidence < kp.confidence then
          let cur : Vec2 := ⟨kp.x, kp.y⟩
          match lastPos i with
          | some last =>
            let dx := cur.x - last.x
            let dy := cur.y - last.y
            let dist := env.sqrtQ (dx * dx + dy * dy)
            (tot + dist, valid + 1, setF lastPos i (some cur))
          | none => (tot, valid, setF lastPos i (some cur))
        else acc
      | none => acc)
    start
  let (totalMovement, validKeypoints, lastPos) := loopRes
  let st := { st with poseLastPositions := setF st.poseLastPositions poseIndex lastPos }
  let avgMovement := if 0 < validKeypoints then totalMovement / (validKeypoints : ℚ) else 0
  let st :=
    if avgMovement < poseMovementThreshold then
      let still1 : ℕ → ℚ := setF st.poseStillnessTime poseIndex (st.poseStillnessTime poseIndex + 16)
      { st with poseStillnessTime := still1 }
    else
      { st with poseStillnessTime := setF st.poseStillnessTime poseIndex 0 }
  let (st, k) :=
    if poseMovementThreshold * 2 < avgMovement then
      let (r1, k1) := (env.rand k, k + 1)
      if r1 < 3/20 then
        let (r2, k2) := (env.rand k1, k1 + 1)
        let ri := ratFloorNat (r2 * 17)
        let (c, k3) := getRandomColor env k2
        let colors1 := setF st.poseColors poseIndex (setF (st.poseColors poseIndex) ri (some c))
        ({ st with poseColors := colors1 }, k3)
      else (st, k1)
    else if poseMovementThreshold < avgMovement then
      let (r1, k1) := (env.rand k, k + 1)
      if r1 < 3/100 then
        let (r2, k2) := (env.rand k1, k1 + 1)
        let ri := ratFloorNat (r2 * 17)
        let (c, k3) := getRandomColor env k2
        let colors1 := setF st.poseColors poseIndex (setF (st.poseColors poseIndex) ri (some c))
        ({ st with poseColors := colors1 }, k3)
      else (st, k1)
    else (st, k)
  if st.paintMode = "fireworks" then
    fireworksTrigger env k st pose minConfidence avgMovement
  else (st, k)

/-- Lines 402-436 (drawGlowingCircle): the radial-gradient arc of radius
size * 0.6 is recorded as one glow operation carrying the parsed color
and the dynamic opacity. A null color would fault in JavaScript. -/
def drawGlowingCircle (x y size : ℚ) (colorHex : String) (opacity : ℚ) : List DrawOp :=
  match hexToRgb colorHex with
  | some rgb => [DrawOp.glowCircle x y (size * (6/10)) rgb.r rgb.g rgb.b opacity]
  | none => []

/-- Lines 278-338 (drawGrowingCircles): movement tracking, the hands-up
check, then per keypoint (ears skipped) lazy color assignment, the
breathing size wave, the hands-up growth update (one growthStep
application per drawn keypoint) and one glowing circle. The lazy
per-slot array initialisation of lines 280-284 is the identity in the
total-function state model. -/
def drawGrowingCircles (env : Env) (k : ℕ) (st : VisState) (pose : Pose)
    (minConfidence : ℚ) (poseIndex : ℕ) : VisState × List DrawOp × ℕ :=
  let (st1, k1) := updateMovementTracking env k st pose poseIndex minConfidence
  let handsUp := checkHandsUp pose minConfidence
  (List.range pose.keypoints.length).foldl
    (fun (acc : VisState × List DrawOp × ℕ) j =>
      if j = 3 ∨ j = 4 then acc
      else
        match pose.keypoints.get? j with
        | some keypoint =>
          if minConfidence < keypoint.confidence then
            let (st, ops, k) := acc
            let (col, st, k) :=
              match st.poseColors poseIndex j with
              | some c => (c, st, k)
              | none =>
                let (c, k2) := getRandomColor env k
                let colors1 := setF st.poseColors poseIndex (setF (st.poseColors poseIndex) j (some c))
                (c, { st with poseColors := colors1 }, k2)
            let time := env.millisQ * (1/1000)
            let baseSize : ℚ := 90
            let sizeWave := env.sinQ (time * 2 + (j : ℚ) * (1/2)) * 30
            let size0 := baseSize + sizeWave
            let (st, size1) :=
              if handsUp then
                let g := growthStep true st.handsUpGrowth
                ({ st with handsUpGrowth := g }, size0 * (1 + g))
              else
                ({ st with handsUpGrowth := growthStep false st.handsUpGrowth }, size0)
            let opacityWave := env.sinQ (time * (3/2) + (j : ℚ) * (3/10)) * (2/10)
            let dynamicOpacity := max (9/10) (st.paintOpacity * (9/10 + opacityWave))
            (st, ops ++ drawGlowingCircle keypoint.x keypoint.y size1 col dynamicOpacity, k)
          else acc
        | none => acc)
    (st1, [], k1)

/-- Lines 187-209: the switch body of the per-pose loop of visualize.
Unknown mode strings match no case and leave the accumulator as is. -/
def visualizeStep (env : Env) (connections : List (ℕ × ℕ)) (minConfidence : ℚ)
    (acc : VisState × List DrawOp × ℕ) (ip : ℕ × Pose) : VisState × List DrawOp × ℕ :=
  let (st, ops, k) := acc
  let i := ip.1
  let pose := ip.2
  if st.paintMode = "keypoints" then
    (st, ops ++ drawKeypoints pose minConfidence st.paintColor st.paintSize st.paintOpacity, k)
  else if st.paintMode = "skeleton" then
    (st, ops ++ drawSkeleton pose connections minConfidence st.paintColor st.paintSize st.paintOpacity, k)
  else if st.paintMode = "trails" then
    let (buf2, tops) := drawTrails (st.poseTrails i) pose minConfidence
      st.paintColor st.paintSize st.paintOpacity
    ({ st with poseTrails := setF st.poseTrails i buf2 }, ops ++ tops, k)
  else if st.paintMode = "circles" then
    let (st2, o, k2) := drawGrowingCircles env k st pose minConfidence i
    (st2, ops ++ o, k2)
  else if st.paintMode = "fireworks" then
    let (st2, o, k2) := drawGrowingCircles env k st pose minConfidence i
    (st2, ops ++ o, k2)
  else acc

/-- Lines 180-213 (visualize): with no poses, only the fireworks overlay
is advanced and drawn; otherwise each pose is dispatched on the paint
mode string through visualizeStep and the fireworks overlay is drawn on
top. -/
def visualize (env : Env) (k : ℕ) (st : VisState) (poses : List Pose)
    (connections : List (ℕ × ℕ)) (minConfidence : ℚ) :
    VisState × List DrawOp × ℕ :=
  if poses.length = 0 then
    let (fw, fops, k1) := FireworksManager.updateAndDraw env k st.fireworks
    ({ st with fireworks := fw }, fops, k1)
  else
    let dispatched := poses.enum.foldl (visualizeStep env connections minConfidence) (st, [], k)
    let (st1, ops, k1) := dispatched
    let (fw, fops, k2) := FireworksManager.updateAndDraw env k1 st1.fireworks
    ({ st1 with fireworks := fw }, ops ++ fops, k2)

end PoseVisualizer

/- ------------------------------------------------------------------
   Frame orchestration, public/sketch.js.
   ------------------------------------------------------------------ -/

/-- p5 constrain(n, low, high). -/
def constrainQ (n low high : ℚ) : ℚ := min (max n low) high

/-- p5 map(value, start1, stop1, start2, stop2), linear. -/
def mapRange (value start1 stop1 start2 stop2 : ℚ) : ℚ :=
  start2 + (stop2 - start2) * ((value - start1) / (stop1 - start1))

/-- The engine states the frame loop owns: the PoseVisualizer instance
and the three standalone systems (sketch.js lines 87-90), with the
smoke wind vector it reads during run. -/
structure GlobalState where
  vis : VisState
  emitters : List (List PParticle)
  smoke : List SmokeParticle
  smokeWind : Vec2
  fwBursts : List (List PooledSpark)

/-- sketch.js lines 917-938 (updateParticles): exactly one per-mode
system is advanced and drawn, selected by the active paint mode;
every other mode (including unknown strings) leaves all of them
untouched. -/
def updateParticles (env : Env) (k : ℕ) (g : GlobalState) :
    GlobalState × List DrawOp × ℕ :=
  if g.vis.paintMode = "particles" then
    let em := ParticleSystem.update env g.emitters
    ({ g with emitters := em }, ParticleSystem.draw em, k)
  else if g.vis.paintMode = "fireworks" then
    let (bursts, ops, k1) := FireworksSystem.updateAndDraw env k g.fwBursts
    ({ g with fwBursts := bursts }, ops, k1)
  else if g.vis.paintMode = "smoke" then
    let mousePosX := constrainQ env.mouseXQ 0 env.widthQ
    let dx := mapRange mousePosX 0 env.widthQ (-(2/10)) (2/10)
    let wind : Vec2 := ⟨dx, 0⟩
    let particles1 := SmokeSystem.applyForce wind g.smoke
    let (particles2, ops) := SmokeSystem.run g.smokeWind particles1
    ({ g with smoke := particles2 }, ops, k)
  else (g, [], k)

/-- sketch.js line 806: with zero poses paintOnCanvas returns before
reaching any emission or the visualize call, so it is the identity on
every engine state. -/
def paintOnCanvasNoPoses (g : GlobalState) : GlobalState := g

/-- One frame of the draw loop (sketch.js lines 99-159) on a zero-pose
frame: paintOnCanvas is the identity, then updateParticles runs; the
remaining calls of draw (video, info text, handleModeSwitching, which
needs poses.length = 1 to act) touch no engine state. -/
def noPoseFrame (env : Env) (k : ℕ) (g : GlobalState) :
    GlobalState × List DrawOp × ℕ :=
  updateParticles env k (paintOnCanvasNoPoses g)

/-- n consecutive zero-pose frames. -/
def noPoseIter (env : Env) : ℕ → ℕ → GlobalState → GlobalState × ℕ
  | 0, k, g => (g, k)
  | n + 1, k, g =>
    let (g1, _, k1) := noPoseFrame env k g
    noPoseIter env n k1 g1

/-- n consecutive updateAndDraw calls of the standalone fireworks
system, threading the random counter. -/
def fwSysIter (env : Env) : ℕ → ℕ → List (List PooledSpark) → List (List PooledSpark) × ℕ
  | 0, k, bursts => (bursts, k)
  | n + 1, k, bursts =>
    let r := FireworksSystem.updateAndDraw env k bursts
    fwSysIter env n r.2.2 r.1

/-- The smoke-system state evolution of one zero-pose frame in smoke
mode (sketch.js lines 924-937): the mouse-derived wind is applied, then
run adds the internal wind, updates, and drops dead particles. -/
def smokeFrameStep (env : Env) (currentWind : Vec2) (particles : List SmokeParticle) :
    List SmokeParticle :=
  (SmokeSystem.run currentWind
    (SmokeSystem.applyForce
      ⟨mapRange (constrainQ env.mouseXQ 0 env.widthQ) 0 env.widthQ (-(2/10)) (2/10), 0⟩
      particles)).1

/- ------------------------------------------------------------------
   Concrete instances used by witnesses and counterexamples.
   ------------------------------------------------------------------ -/

/-- Decay of a spark: its life after n updates (the life field is the
only spark field its own update depends on). -/
def Spark.lifeAfter (n : ℕ) (s : Spark) : ℚ := s.life - (n : ℚ) * (s.decay * (7/10))

/-- A concrete deterministic backend: the random and Gaussian streams are
constantly 0, the transcendental functions are constantly 0, with the
default 640 x 480 canvas. -/
def constEnv : Env :=
  { rand := fun _ => 0
    gaussQ := fun _ => 0
    sinQ := fun _ => 0
    cosQ := fun _ => 0
    sqrtQ := fun _ => 0
    noiseQ := fun _ => 0
    millisQ := 0
    frameCountQ := 0
    mouseXQ := 0
    widthQ := 640
    heightQ := 480
    twoPiQ := 710/113 }

/-- A single-keypoint pose at (5, 7) with confidence 0.9. -/
def onePointPose : Pose := ⟨[⟨5, 7, 9/10⟩]⟩

/-- A two-keypoint pose: one confident point at (5, 7), one at (20, 30)
with confidence 0.05, below the default threshold. -/
def twoPointPose : Pose := ⟨[⟨5, 7, 9/10⟩, ⟨20, 30, 1/20⟩]⟩

/-- A freshly created overlay spark with the minimal decay 3. -/
def demoSpark : Spark :=
  { pos := ⟨0, 0⟩, prev := ⟨0, 0⟩, vel := ⟨0, 0⟩
    life := 255, decay := 3, size := 4, color := ⟨255, 255, 255⟩ }

/-- An active pooled spark with the minimal decay 3. -/
def demoPooledSpark : PooledSpark :=
  { pos := ⟨0, 0⟩, prev := ⟨0, 0⟩, vel := ⟨0, 0⟩
    life := 255, decay := 3, size := 4, color := ⟨255, 255, 255⟩, active := true }

/-- A visualizer state whose paint mode is an unknown string while the
fireworks overlay still holds one live burst. -/
def bogusModeState : VisState :=
  { PoseVisualizer.init with paintMode := "bogus", fireworks := [[demoSpark]] }

/-- A tracked paint particle at full life. -/
def demoPaintParticle : PParticle :=
  { PParticle.new with life := 1, active := true, size := 5 }

/-- A fresh smoke particle. -/
def demoSmokeParticle : SmokeParticle :=
  { position := ⟨0, 0⟩, velocity := ⟨0, 0⟩, acceleration := ⟨0, 0⟩
    lifespan := 100, maxLifespan := 100, size := 10, baseSize := 10, colorIndex := 0 }

/-- Smoke paint mode while the standalone fireworks system still holds a
live burst (reachable: the mode selector switches modes without clearing
the fireworks system). -/
def smokeModeGlobal : GlobalState :=
  { vis := { PoseVisualizer.init with paintMode := "smoke" }
    emitters := []
    smoke := []
    smokeWind := ⟨0, 0⟩
    fwBursts := [[demoPooledSpark]] }

/-- Fireworks paint mode with one live pooled burst. -/
def fireworksModeGlobal : GlobalState :=
  { vis := { PoseVisualizer.init with paintMode := "fireworks" }
    emitters := []
    smoke := []
    smokeWind := ⟨0, 0⟩
    fwBursts := [[demoPooledSpark]] }

/-- A whole-frame state whose paint mode is the unknown string. -/
def bogusModeGlobal : GlobalState :=
  { vis := bogusModeState
    emitters := []
    smoke := []
    smokeWind := ⟨0, 0⟩
    fwBursts := [] }

/-- Twenty synthetic snapshot frames for the trail FIFO witness. -/
def snaps20 : List PoseVisualizer.Snap :=
  (List.range 20).map fun i => [((i : ℚ), 0)]

/-- A three-slot spark pool with the cursor at 1. -/
def demoPool : SparkPool := { pool := List.replicate 3 PooledSpark.new, cursor := 1 }

/-- An emitter whose single pool slot is active and tracked. -/
def demoEmitter : ParticleEmitter :=
  { particlePool := [demoPaintParticle], particles := [0] }

/- ==================================================================
   Theorems.
   ================================================================== -/

/- Shared helper lemmas for the hex conversions. -/

lemma hexDigitVal_lt_16 (c : Char) (h : isHexDigit c = true) : hexDigitVal c < 16 := by
  have h' : (48 ≤ c.toNat ∧ c.toNat ≤ 57) ∨ (97 ≤ c.toNat ∧ c.toNat ≤ 102) ∨
      (65 ≤ c.toNat ∧ c.toNat ≤ 70) := by simpa [isHexDigit] using h
  unfold hexDigitVal
  split_ifs <;> omega

lemma toHexChar_hexDigitVal (c : Char) (h : isHexDigit c = true) :
    toHexChar (hexDigitVal c) = lowerChar c := by
  have h' : (48 ≤ c.toNat ∧ c.toNat ≤ 57) ∨ (97 ≤ c.toNat ∧ c.toNat ≤ 102) ∨
      (65 ≤ c.toNat ∧ c.toNat ≤ 70) := by simpa [isHexDigit] using h
  rcases h' with ⟨h1, h2⟩ | ⟨h1, h2⟩ | ⟨h1, h2⟩
  · have hv : hexDigitVal c = c.toNat - 48 := by
      unfold hexDigitVal; rw [if_pos ⟨h1, h2⟩]
    have hlt : c.toNat - 48 < 10 := by omega
    have harith : 48 + (c.toNat - 48) = c.toNat := by omega
    have hlow : lowerChar c = c := by
      unfold lowerChar; rw [if_neg (by omega)]
    rw [hv, hlow]
    unfold toHexChar
    rw [if_pos hlt, harith, Char.ofNat_toNat]
  · have hv : hexDigitVal c = c.toNat - 87 := by
      unfold hexDigitVal; rw [if_neg (by omega), if_pos ⟨h1, h2⟩]
    have hlt : ¬ (c.toNat - 87 < 10) := by omega
    have harith : 87 + (c.toNat - 87) = c.toNat := by omega
    have hlow : lowerChar c = c := by
      unfold lowerChar; rw [if_neg (by omega)]
    rw [hv, hlow]
    unfold toHexChar
    rw [if_neg hlt, harith, Char.ofNat_toNat]
  · have hv : hexDigitVal c = c.toNat - 55 := by
      unfold hexDigitVal; rw [if_neg (by omega), if_neg (by omega), if_pos ⟨h1, h2⟩]
    have hlt : ¬ (c.toNat - 55 < 10) := by omega
    have harith : 87 + (c.toNat - 55) = c.toNat + 32 := by omega
    have hlow : lowerChar c = Char.ofNat (c.toNat + 32) := by
      unfold lowerChar; rw [if_pos (by omega)]
    rw [hv, hlow]
    unfold toHexChar
    rw [if_neg hlt, harith]

lemma byteToHex_pack (a b : ℕ) (_ha : a < 16) (hb : b < 16) :
    byteToHex (16 * a + b) = [toHexChar a, toHexChar b] := by
  unfold byteToHex
  have h1 : (16 * a + b) / 16 = a := by omega
  have h2 : (16 * a + b) % 16 = b := by omega
  rw [h1, h2]

lemma exists_six_chars (l : List Char) (h : l.length = 6) :
    ∃ a b c d e f, l = [a, b, c, d, e, f] := by
  rcases l with _ | ⟨a, l⟩; · simp at h
  rcases l with _ | ⟨b, l⟩; · simp at h
  rcases l with _ | ⟨c, l⟩; · simp at h
  rcases l with _ | ⟨d, l⟩; · simp at h
  rcases l with _ | ⟨e, l⟩; · simp at h
  rcases l with _ | ⟨f, l⟩; · simp at h
  rcases l with _ | ⟨g, l⟩
  · exact ⟨a, b, c, d, e, f, rfl⟩
  · simp at h

/-- C9: for every valid 6-digit hex color string (optionally prefixed
with a hash, any letter case), hexToRgb produces an RGB triple whose
lowercase hex reconstruction equals the digit portion of the input
lowercased, so re-formatting the triple reproduces the input up to case
(and up to the optional hash prefix). -/
theorem C9_hexToRgb_roundtrip (s : String)
    (hlen : (stripHash s.data).length = 6)
    (hhex : ∀ c ∈ stripHash s.data, isHexDigit c = true) :
    ∃ rgb, PoseVisualizer.hexToRgb s = some rgb ∧
      formatRgb rgb = (stripHash s.data).map lowerChar := by
  obtain ⟨c1, c2, c3, c4, c5, c6, hl⟩ := exists_six_chars _ hlen
  have h1 : isHexDigit c1 = true := hhex c1 (by rw [hl]; simp)
  have h2 : isHexDigit c2 = true := hhex c2 (by rw [hl]; simp)
  have h3 : isHexDigit c3 = true := hhex c3 (by rw [hl]; simp)
  have h4 : isHexDigit c4 = true := hhex c4 (by rw [hl]; simp)
  have h5 : isHexDigit c5 = true := hhex c5 (by rw [hl]; simp)
  have h6 : isHexDigit c6 = true := hhex c6 (by rw [hl]; simp)
  refine ⟨⟨16 * hexDigitVal c1 + hexDigitVal c2,
          16 * hexDigitVal c3 + hexDigitVal c4,
          16 * hexDigitVal c5 + hexDigitVal c6⟩, ?_, ?_⟩
  · unfold PoseVisualizer.hexToRgb hexMatch
    rw [hl]
    simp [h1, h2, h3, h4, h5, h6]
  · unfold formatRgb
    rw [hl]
    simp only [List.map]
    rw [byteToHex_pack _ _ (hexDigitVal_lt_16 c1 h1) (hexDigitVal_lt_16 c2 h2),
        byteToHex_pack _ _ (hexDigitVal_lt_16 c3 h3) (hexDigitVal_lt_16 c4 h4),
        byteToHex_pack _ _ (hexDigitVal_lt_16 c5 h5) (hexDigitVal_lt_16 c6 h6),
        toHexChar_hexDigitVal c1 h1, toHexChar_hexDigitVal c2 h2,
        toHexChar_hexDigitVal c3 h3, toHexChar_hexDigitVal c4 h4,
        toHexChar_hexDigitVal c5 h5, toHexChar_hexDigitVal c6 h6]
    rfl

/-- C9 witness: the round-trip at the concrete palette color #FF006E. -/
theorem C9_hexToRgb_roundtrip_witness :
    ∃ rgb, PoseVisualizer.hexToRgb "#FF006E" = some rgb ∧
      formatRgb rgb = (stripHash "#FF006E".data).map lowerChar :=
  C9_hexToRgb_roundtrip "#FF006E" (by decide) (by decide)

/-- C10 counterexample: at the input "zz" the two implementations
disagree as the claim denies: the PoseVisualizer version returns null
(none) while the Spark version returns white. -/
theorem C10_hexToRgb_disagree_on_invalid :
    PoseVisualizer.hexToRgb "zz" = none ∧
      Spark.hexToRgb "zz" = { r := 255, g := 255, b := 255 } := by
  constructor <;> rfl

/-- C10 amended: the two hexToRgb implementations agree on every string
the shared regex accepts (whenever the PoseVisualizer version returns a
triple, the Spark version returns the same triple); on rejected strings
the PoseVisualizer version returns null while the Spark version returns
white, so they differ exactly on the invalid inputs. -/
theorem C10_hexToRgb_agree_on_valid (s : String) :
    (∀ rgb, PoseVisualizer.hexToRgb s = some rgb → Spark.hexToRgb s = rgb) ∧
      (PoseVisualizer.hexToRgb s = none →
        Spark.hexToRgb s = { r := 255, g := 255, b := 255 }) := by
  unfold PoseVisualizer.hexToRgb Spark.hexToRgb
  rcases hm : hexMatch s with _ | ⟨r, g, b⟩ <;> simp

/-- C10 witness: agreement at the valid input #ff006e and the white
fallback at the invalid input "xy". -/
theorem C10_hexToRgb_agree_on_valid_witness :
    Spark.hexToRgb "#ff006e" = { r := 255, g := 0, b := 110 } ∧
      Spark.hexToRgb "xy" = { r := 255, g := 255, b := 255 } :=
  ⟨(C10_hexToRgb_agree_on_valid "#ff006e").1 _ (by rfl),
   (C10_hexToRgb_agree_on_valid "xy").2 (by rfl)⟩

/- Trail buffer helper lemmas. -/

lemma trailPushAll_eq_drop (snaps : List PoseVisualizer.Snap) :
    ∀ buf : List PoseVisualizer.Snap, buf.length ≤ PoseVisualizer.trailCap →
      PoseVisualizer.trailPushAll buf snaps =
        (buf ++ snaps).drop (buf.length + snaps.length - PoseVisualizer.trailCap) := by
  induction snaps with
  | nil =>
    intro buf h
    simp only [PoseVisualizer.trailPushAll, List.foldl_nil, List.append_nil, List.length_nil]
    rw [Nat.add_zero, Nat.sub_eq_zero_of_le h, List.drop_zero]
  | cons s ss ih =>
    intro buf h
    have hstep : PoseVisualizer.trailPushAll buf (s :: ss) =
        PoseVisualizer.trailPushAll (PoseVisualizer.trailPush buf s) ss := rfl
    rw [hstep]
    by_cases hc : PoseVisualizer.trailCap < (buf ++ [s]).length
    · have hbuf : buf.length = PoseVisualizer.trailCap := by
        simp only [List.length_append, List.length_cons, List.length_nil] at hc
        omega
      have hpush : PoseVisualizer.trailPush buf s = (buf ++ [s]).drop 1 := by
        simp only [PoseVisualizer.trailPush, if_pos hc, List.drop_one]
      have hlen1 : ((buf ++ [s]).drop 1).length = PoseVisualizer.trailCap := by
        simp only [List.length_drop, List.length_append, List.length_cons, List.length_nil]
        omega
      rw [hpush, ih _ (le_of_eq hlen1), hlen1]
      have hone : (1 : ℕ) ≤ (buf ++ [s]).length := by
        simp only [List.length_append, List.length_cons, List.length_nil]
        omega
      rw [← List.drop_append_of_le_length hone, List.drop_drop]
      have hl2 : (buf ++ [s]) ++ ss = buf ++ s :: ss := by
        rw [List.append_assoc, List.singleton_append]
      rw [hl2]
      have hidx2 : 1 + (PoseVisualizer.trailCap + ss.length - PoseVisualizer.trailCap)
          = buf.length + (s :: ss).length - PoseVisualizer.trailCap := by
        simp only [List.length_cons]
        omega
      rw [hidx2]
    · have hle : (buf ++ [s]).length ≤ PoseVisualizer.trailCap := le_of_not_lt hc
      have hpush : PoseVisualizer.trailPush buf s = buf ++ [s] := by
        simp only [PoseVisualizer.trailPush, if_neg hc]
      rw [hpush, ih _ hle]
      have hl2 : (buf ++ [s]) ++ ss = buf ++ s :: ss := by
        rw [List.append_assoc, List.singleton_append]
      rw [hl2]
      have hidx2 : (buf ++ [s]).length + ss.length - PoseVisualizer.trailCap
          = buf.length + (s :: ss).length - PoseVisualizer.trailCap := by
        simp only [List.length_append, List.length_cons, List.length_nil]
        omega
      rw [hidx2]

/-- C2: the trail buffer never exceeds its cap of 15 entries, and
eviction is first-in-first-out: pushing cap + 5 snapshots into an empty
buffer leaves exactly the last cap snapshots, in push order. -/
theorem C2_trail_cap_and_fifo (snaps : List PoseVisualizer.Snap) :
    (PoseVisualizer.trailPushAll [] snaps).length ≤ PoseVisualizer.trailCap ∧
      (snaps.length = PoseVisualizer.trailCap + 5 →
        PoseVisualizer.trailPushAll [] snaps = snaps.drop 5) := by
  have h := trailPushAll_eq_drop snaps [] (by simp)
  simp only [List.length_nil, List.nil_append, Nat.zero_add] at h
  constructor
  · rw [h, List.length_drop]
    omega
  · intro hlen
    rw [h, hlen]
    norm_num

/-- C2 witness: twenty synthetic frames into the cap-15 buffer leave the
last fifteen, in order. -/
theorem C2_trail_cap_and_fifo_witness :
    PoseVisualizer.trailPushAll [] snaps20 = snaps20.drop 5 ∧
      (PoseVisualizer.trailPushAll [] snaps20).length ≤ PoseVisualizer.trailCap :=
  ⟨(C2_trail_cap_and_fifo snaps20).2 (by decide), (C2_trail_cap_and_fifo snaps20).1⟩

/- Growth accumulator helper lemmas. -/

lemma growthStep_true_ge (g : ℚ) (h3 : g ≤ PoseVisualizer.maxGrowthMultiplier) :
    g ≤ PoseVisualizer.growthStep true g := by
  simp only [PoseVisualizer.growthStep, PoseVisualizer.growthSpeed,
    PoseVisualizer.maxGrowthMultiplier, if_true] at *
  exact le_min (by linarith) h3

lemma growthStep_false_le (g : ℚ) (h0 : 0 ≤ g) : PoseVisualizer.growthStep false g ≤ g := by
  simp only [PoseVisualizer.growthStep, Bool.false_eq_true, if_false]
  nlinarith

lemma growthStep_range (b : Bool) (g : ℚ) (h0 : 0 ≤ g)
    (h3 : g ≤ PoseVisualizer.maxGrowthMultiplier) :
    0 ≤ PoseVisualizer.growthStep b g ∧
      PoseVisualizer.growthStep b g ≤ PoseVisualizer.maxGrowthMultiplier := by
  cases b
  · refine ⟨?_, le_trans (growthStep_false_le g h0) h3⟩
    simp only [PoseVisualizer.growthStep, Bool.false_eq_true, if_false]
    nlinarith
  · constructor
    · simp only [PoseVisualizer.growthStep, PoseVisualizer.growthSpeed,
        PoseVisualizer.maxGrowthMultiplier, if_true]
      exact le_min (by linarith) (by norm_num)
    · simp only [PoseVisualizer.growthStep, PoseVisualizer.maxGrowthMultiplier, if_true]
      exact min_le_right _ _

lemma growthRun_range (bs : List Bool) :
    ∀ g : ℚ, 0 ≤ g → g ≤ PoseVisualizer.maxGrowthMultiplier →
      0 ≤ PoseVisualizer.growthRun g bs ∧
        PoseVisualizer.growthRun g bs ≤ PoseVisualizer.maxGrowthMultiplier := by
  induction bs with
  | nil => intro g h0 h3; exact ⟨h0, h3⟩
  | cons b bs ih =>
    intro g h0 h3
    have hstep := growthStep_range b g h0 h3
    exact ih _ hstep.1 hstep.2

lemma growthRun_true_mono (bs : List Bool) :
    ∀ g : ℚ, 0 ≤ g → g ≤ PoseVisualizer.maxGrowthMultiplier →
      (∀ b ∈ bs, b = true) → g ≤ PoseVisualizer.growthRun g bs := by
  induction bs with
  | nil => intro g _ _ _; exact le_refl g
  | cons b bs ih =>
    intro g h0 h3 hall
    have hb : b = true := hall b (by simp)
    subst hb
    have hstep := growthStep_range true g h0 h3
    have h1 : g ≤ PoseVisualizer.growthStep true g := growthStep_true_ge g h3
    have h2 := ih _ hstep.1 hstep.2 (fun b hb => hall b (by simp [hb]))
    exact le_trans h1 h2

lemma growthRun_false_anti (bs : List Bool) :
    ∀ g : ℚ, 0 ≤ g → (∀ b ∈ bs, b = false) → PoseVisualizer.growthRun g bs ≤ g := by
  induction bs with
  | nil => intro g _ _; exact le_refl g
  | cons b bs ih =>
    intro g h0 hall
    have hb : b = false := hall b (by simp)
    subst hb
    have h1 : PoseVisualizer.growthStep false g ≤ g := growthStep_false_le g h0
    have h0' : 0 ≤ PoseVisualizer.growthStep false g := by
      simp only [PoseVisualizer.growthStep, Bool.false_eq_true, if_false]
      nlinarith
    have h2 := ih _ h0' (fun b hb => hall b (by simp [hb]))
    exact le_trans h2 h1

/-- C3: starting from any growth value in [0, maxGrowthMultiplier] (the
accumulator starts at 0), each hands-up application is non-decreasing,
each release application is non-increasing (geometric decay by 0.95),
and any sequence of applications keeps the accumulator within
[0, maxGrowthMultiplier]; over whole frame sequences the accumulator is
monotone non-decreasing while the gesture holds and monotone
non-increasing after it stops. -/
theorem C3_growth_monotone_and_bounded (g : ℚ)
    (h0 : 0 ≤ g) (h3 : g ≤ PoseVisualizer.maxGrowthMultiplier) :
    (g ≤ PoseVisualizer.growthStep true g) ∧
      (PoseVisualizer.growthStep false g ≤ g) ∧
      (∀ b, 0 ≤ PoseVisualizer.growthStep b g ∧
        PoseVisualizer.growthStep b g ≤ PoseVisualizer.maxGrowthMultiplier) ∧
      (∀ bs : List Bool, (∀ b ∈ bs, b = true) → g ≤ PoseVisualizer.growthRun g bs) ∧
      (∀ bs : List Bool, (∀ b ∈ bs, b = false) → PoseVisualizer.growthRun g bs ≤ g) ∧
      (∀ bs : List Bool, 0 ≤ PoseVisualizer.growthRun g bs ∧
        PoseVisualizer.growthRun g bs ≤ PoseVisualizer.maxGrowthMultiplier) :=
  ⟨growthStep_true_ge g h3,
   growthStep_false_le g h0,
   fun b => growthStep_range b g h0 h3,
   fun bs hall => growthRun_true_mono bs g h0 h3 hall,
   fun bs hall => growthRun_false_anti bs g h0 hall,
   fun bs => growthRun_range bs g h0 h3⟩

/-- C3 witness: the accumulator at 1 grows over two hands-up frames,
decays over a release frame, and stays within the bounds. -/
theorem C3_growth_monotone_and_bounded_witness :
    (1 : ℚ) ≤ PoseVisualizer.growthRun 1 [true, true] ∧
      PoseVisualizer.growthRun 1 [false] ≤ 1 ∧
      0 ≤ PoseVisualizer.growthRun 1 [true, false, true] ∧
      PoseVisualizer.growthRun 1 [true, false, true] ≤ PoseVisualizer.maxGrowthMultiplier := by
  have h := C3_growth_monotone_and_bounded 1 (by norm_num)
    (by norm_num [PoseVisualizer.maxGrowthMultiplier])
  exact ⟨h.2.2.2.1 [true, true] (by decide),
         h.2.2.2.2.1 [false] (by decide),
         (h.2.2.2.2.2 [true, false, true]).1,
         (h.2.2.2.2.2 [true, false, true]).2⟩

/- Pool helper lemmas. -/

lemma findIdx?_lt_length {α : Type} (l : List α) (p : α → Bool) (i : ℕ)
    (h : l.findIdx? p = some i) : i < l.length := by
  induction l generalizing i with
  | nil => simp [List.findIdx?] at h
  | cons a as ih =>
    rw [List.findIdx?_cons] at h
    by_cases hp : p a
    · simp [hp] at h
      simp [List.length_cons]
      omega
    · simp [hp] at h
      obtain ⟨j, hj, hji⟩ := h
      have hlt := ih j hj
      simp [List.length_cons]
      omega

lemma getMany_closed_form (n : ℕ) :
    ∀ p : SparkPool, p.cursor < p.pool.length →
      (SparkPool.getMany n p).1 =
        (List.range n).map (fun j => (p.cursor + j) % p.pool.length) ∧
      (SparkPool.getMany n p).2 = ⟨p.pool, (p.cursor + n) % p.pool.length⟩ := by
  induction n with
  | zero =>
    intro p h
    obtain ⟨pool, cursor⟩ := p
    simp only [SparkPool.getMany, List.range_zero, List.map_nil, true_and]
    simp only at h
    rw [Nat.add_zero, Nat.mod_eq_of_lt h]
  | succ n ih =>
    intro p h
    have hlen : 0 < p.pool.length := lt_of_le_of_lt (Nat.zero_le _) h
    have hget : SparkPool.get p = (p.cursor, ⟨p.pool, (p.cursor + 1) % p.pool.length⟩) := rfl
    have hcur1 : ((p.cursor + 1) % p.pool.length) < p.pool.length := Nat.mod_lt _ hlen
    have hstep : SparkPool.getMany (n + 1) p =
        (p.cursor :: (SparkPool.getMany n ⟨p.pool, (p.cursor + 1) % p.pool.length⟩).1,
         (SparkPool.getMany n ⟨p.pool, (p.cursor + 1) % p.pool.length⟩).2) := rfl
    obtain ⟨ihl, ihs⟩ := ih ⟨p.pool, (p.cursor + 1) % p.pool.length⟩ hcur1
    simp only at ihl ihs
    constructor
    · rw [hstep]
      simp only
      rw [ihl, List.range_succ_eq_map, List.map_cons, List.map_map]
      simp only [Nat.add_zero, Nat.mod_eq_of_lt h]
      congr 1
      apply List.map_congr_left
      intro j _
      simp only [Function.comp_apply, Nat.succ_eq_add_one]
      rw [Nat.mod_add_mod]
      congr 1
      omega
    · rw [hstep]
      simp only
      rw [ihs]
      congr 1
      rw [Nat.mod_add_mod]
      congr 1
      omega

/-- C5: pooled allocation never grows a pool. For the spark pool: get()
leaves the pool array unchanged with the cursor back in [0, capacity);
every handed-out slot index is an existing slot; and capacity + 1
consecutive requests wrap around, the last handed slot being the same
slot as the first regardless of its activity state. For the particle
emitter: getParticle never changes the pool length and only ever hands
back an index of an existing slot. -/
theorem C5_pool_never_grows (p : SparkPool) (e : ParticleEmitter)
    (hp : p.cursor < p.pool.length)
    (he : ∀ i ∈ e.particles, i < e.particlePool.length) :
    ((SparkPool.get p).2.pool = p.pool ∧ (SparkPool.get p).2.cursor < p.pool.length) ∧
      (∀ n, (SparkPool.getMany n p).2.pool = p.pool ∧
        (SparkPool.getMany n p).2.cursor < p.pool.length) ∧
      (∀ n, ∀ i ∈ (SparkPool.getMany n p).1, i < p.pool.length) ∧
      ((SparkPool.getMany (p.pool.length + 1) p).1.head? = some p.cursor ∧
        (SparkPool.getMany (p.pool.length + 1) p).1.getLast? = some p.cursor) ∧
      ((ParticleEmitter.getParticle e).2.particlePool.length = e.particlePool.length ∧
        ∀ i, (ParticleEmitter.getParticle e).1 = some i → i < e.particlePool.length) := by
  have hlen : 0 < p.pool.length := lt_of_le_of_lt (Nat.zero_le _) hp
  refine ⟨⟨rfl, Nat.mod_lt _ hlen⟩, ?_, ?_, ⟨?_, ?_⟩, ?_⟩
  · intro n
    obtain ⟨-, hs⟩ := getMany_closed_form n p hp
    rw [hs]
    exact ⟨rfl, Nat.mod_lt _ hlen⟩
  · intro n i hi
    obtain ⟨hl, -⟩ := getMany_closed_form n p hp
    rw [hl] at hi
    obtain ⟨j, -, rfl⟩ := List.mem_map.mp hi
    exact Nat.mod_lt _ hlen
  · obtain ⟨hl, -⟩ := getMany_closed_form (p.pool.length + 1) p hp
    rw [hl, List.range_succ_eq_map, List.map_cons, List.head?_cons]
    rw [Nat.add_zero, Nat.mod_eq_of_lt hp]
  · obtain ⟨hl, -⟩ := getMany_closed_form (p.pool.length + 1) p hp
    rw [hl, List.range_succ, List.map_append, List.map_singleton, List.getLast?_concat]
    rw [Nat.add_mod_right, Nat.mod_eq_of_lt hp]
  · rcases hfind : e.particlePool.findIdx? (fun q => !q.active) with _ | i
    · rcases hpart : e.particles with _ | ⟨i, rest⟩
      · simp [ParticleEmitter.getParticle, hfind, hpart]
      · constructor
        · simp [ParticleEmitter.getParticle, hfind, hpart, List.length_set]
        · intro j hj
          simp only [ParticleEmitter.getParticle, hfind, hpart] at hj
          rw [Option.some_inj] at hj
          subst hj
          exact he i (by rw [hpart]; exact List.mem_cons_self _ _)
    · constructor
      · simp [ParticleEmitter.getParticle, hfind]
      · intro j hj
        simp only [ParticleEmitter.getParticle, hfind] at hj
        rw [Option.some_inj] at hj
        subst hj
        exact findIdx?_lt_length _ _ _ hfind

/-- C5 witness: the three-slot pool with cursor 1 hands out slots
1, 2, 0, 1 over four requests (the fourth reuses slot 1), and the
single-slot emitter hands back its only slot without growing. -/
theorem C5_pool_never_grows_witness :
    (SparkPool.getMany 4 demoPool).1.getLast? = some demoPool.cursor ∧
      (SparkPool.getMany 4 demoPool).2.pool = demoPool.pool ∧
      (ParticleEmitter.getParticle demoEmitter).2.particlePool.length =
        demoEmitter.particlePool.length := by
  have h := C5_pool_never_grows demoPool demoEmitter (by decide) (by decide)
  exact ⟨h.2.2.2.1.2, (h.2.1 4).1, h.2.2.2.2.1⟩

/-- C1: low-confidence keypoints are never referenced by a draw call.
Every circle drawn by drawKeypoints comes from a keypoint whose
confidence strictly exceeds the threshold; every line drawn by
drawSkeleton has both endpoints strictly above the threshold; and every
point appended to the trail buffer by drawTrails (the snapshot) comes
from a keypoint strictly above the threshold. Hence a keypoint with
confidence at or below the threshold contributes no circle, no line
endpoint and no trail entry. -/
theorem C1_low_confidence_never_referenced (pose : Pose) (connections : List (ℕ × ℕ))
    (minConfidence : ℚ) (color : String) (size opacity : ℚ) :
    (∀ op ∈ PoseVisualizer.drawKeypoints pose minConfidence color size opacity,
      ∃ kp ∈ pose.keypoints, minConfidence < kp.confidence ∧
        ∃ rgb, PoseVisualizer.hexToRgb color = some rgb ∧
          op = DrawOp.circleFill kp.x kp.y size rgb.r rgb.g rgb.b opacity) ∧
      (∀ op ∈ PoseVisualizer.drawSkeleton pose connections minConfidence color size opacity,
        ∃ pointA ∈ pose.keypoints, ∃ pointB ∈ pose.keypoints,
          minConfidence < pointA.confidence ∧ minConfidence < pointB.confidence ∧
            ∃ rgb, PoseVisualizer.hexToRgb color = some rgb ∧
              op = DrawOp.lineStroke pointA.x pointA.y pointB.x pointB.y
                rgb.r rgb.g rgb.b opacity (size / 2)) ∧
      (∀ pt ∈ PoseVisualizer.trailSnapshot pose minConfidence,
        ∃ kp ∈ pose.keypoints, minConfidence < kp.confidence ∧ pt = (kp.x, kp.y)) := by
  refine ⟨?_, ?_, ?_⟩
  · intro op hop
    simp only [PoseVisualizer.drawKeypoints, List.mem_flatMap] at hop
    obtain ⟨kp, hkp, hin⟩ := hop
    by_cases hconf : minConfidence < kp.confidence
    · rw [if_pos hconf] at hin
      rcases hrgb : PoseVisualizer.hexToRgb color with _ | rgb
      · rw [hrgb] at hin
        simp at hin
      · rw [hrgb] at hin
        simp only [List.mem_singleton] at hin
        exact ⟨kp, hkp, hconf, rgb, rfl, hin⟩
    · rw [if_neg hconf] at hin
      simp at hin
  · intro op hop
    simp only [PoseVisualizer.drawSkeleton, List.mem_flatMap] at hop
    obtain ⟨conn, _hconn, hin⟩ := hop
    rcases hA : pose.keypoints.get? conn.1 with _ | pointA
    · rw [hA] at hin
      simp at hin
    · rcases hB : pose.keypoints.get? conn.2 with _ | pointB
      · rw [hA, hB] at hin
        simp at hin
      · rw [hA, hB] at hin
        dsimp only at hin
        by_cases hconf : minConfidence < pointA.confidence ∧ minConfidence < pointB.confidence
        · rw [if_pos hconf] at hin
          rcases hrgb : PoseVisualizer.hexToRgb color with _ | rgb
          · rw [hrgb] at hin
            simp at hin
          · rw [hrgb] at hin
            simp only [List.mem_singleton] at hin
            exact ⟨pointA, List.get?_mem hA, pointB, List.get?_mem hB,
              hconf.1, hconf.2, rgb, rfl, hin⟩
        · rw [if_neg hconf] at hin
          simp at hin
  · intro pt hpt
    simp only [PoseVisualizer.trailSnapshot, List.mem_map] at hpt
    obtain ⟨kp, hmem, rfl⟩ := hpt
    rw [List.mem_filter] at hmem
    exact ⟨kp, hmem.1, of_decide_eq_true hmem.2, rfl⟩

/-- C1 witness: on the two-keypoint pose only the confident keypoint is
drawn, and the drawn circle, the drawn skeleton line and the trail entry
all trace back to keypoints above the threshold. -/
theorem C1_low_confidence_never_referenced_witness :
    (∃ kp ∈ twoPointPose.keypoints, (1/10 : ℚ) < kp.confidence ∧
      ∃ rgb, PoseVisualizer.hexToRgb "#ff0000" = some rgb ∧
        DrawOp.circleFill 5 7 10 255 0 0 80 =
          DrawOp.circleFill kp.x kp.y 10 rgb.r rgb.g rgb.b 80) ∧
      (∃ kp ∈ twoPointPose.keypoints, (1/10 : ℚ) < kp.confidence ∧
        ((5 : ℚ), (7 : ℚ)) = (kp.x, kp.y)) := by
  have hcol : PoseVisualizer.hexToRgb "#ff0000" = some ⟨255, 0, 0⟩ := by decide
  have hkp : PoseVisualizer.drawKeypoints twoPointPose (1/10) "#ff0000" 10 80
      = [DrawOp.circleFill 5 7 10 255 0 0 80] := by
    norm_num [PoseVisualizer.drawKeypoints, twoPointPose, hcol]
  have hsnap : PoseVisualizer.trailSnapshot twoPointPose (1/10) = [((5 : ℚ), (7 : ℚ))] := by
    norm_num [PoseVisualizer.trailSnapshot, twoPointPose]
  exact ⟨(C1_low_confidence_never_referenced twoPointPose [(0, 1)] (1/10) "#ff0000" 10 80).1
      (DrawOp.circleFill 5 7 10 255 0 0 80) (by rw [hkp]; exact List.mem_singleton_self _),
    (C1_low_confidence_never_referenced twoPointPose [(0, 1)] (1/10) "#ff0000" 10 80).2.2
      ((5 : ℚ), (7 : ℚ)) (by rw [hsnap]; exact List.mem_singleton_self _)⟩

/- Trail draw-loop helper lemmas. -/

lemma mem_range_drop_one (n i : ℕ) : i ∈ (List.range n).drop 1 ↔ 1 ≤ i ∧ i < n := by
  cases n with
  | zero => simp
  | succ m =>
    rw [List.range_succ_eq_map]
    simp only [List.drop_succ_cons, List.drop_zero, List.mem_map, List.mem_range]
    constructor
    · rintro ⟨j, hj, rfl⟩
      omega
    · rintro ⟨h1, h2⟩
      exact ⟨i - 1, by omega, by omega⟩

lemma trailPush_concat (buf : List PoseVisualizer.Snap) (s : PoseVisualizer.Snap) :
    ∃ pre, PoseVisualizer.trailPush buf s = pre ++ [s] := by
  unfold PoseVisualizer.trailPush
  by_cases hc : PoseVisualizer.trailCap < (buf ++ [s]).length
  · rw [if_pos hc]
    rcases buf with _ | ⟨b, bs⟩
    · simp [PoseVisualizer.trailCap] at hc
    · exact ⟨bs, rfl⟩
  · rw [if_neg hc]
    exact ⟨buf, rfl⟩

lemma getD_concat_self (pre : List PoseVisualizer.Snap) (s : PoseVisualizer.Snap) :
    (pre ++ [s]).getD pre.length [] = s := by
  unfold List.getD
  rw [List.get?_concat_length]
  rfl

/-- C6 counterexample: with one prior buffer entry at (0, 0), a
drawTrails call on a confident keypoint at (5, 7) draws a circle at
(5, 7) - the newest frame's raw point, which was not in the buffer
before the current snapshot was appended. -/
theorem C6_newest_frame_drawn_counterexample :
    (PoseVisualizer.drawTrails [[(0, 0)]] onePointPose (1/10) "#ff0000" 10 80).2
      = [DrawOp.circleFill 5 7 5 255 0 0 40] ∧
      ((5 : ℚ), (7 : ℚ)) ∉ ([((0 : ℚ), (0 : ℚ))] : PoseVisualizer.Snap) := by
  constructor
  · have hcol : PoseVisualizer.hexToRgb "#ff0000" = some ⟨255, 0, 0⟩ := by decide
    norm_num [PoseVisualizer.drawTrails, PoseVisualizer.trailSnapshot, PoseVisualizer.trailPush,
      PoseVisualizer.drawTrailsOps, onePointPose, hcol, PoseVisualizer.trailCap, List.range_succ]
  · intro hmem
    rw [List.mem_singleton, Prod.mk.injEq] at hmem
    exact absurd hmem.1 (by norm_num)

/-- C6 amended: the trails draw loop runs over the buffer after the
current snapshot has been appended, from index 1 to the end: every
drawn point belongs to an entry of the post-append buffer other than
the oldest, and in particular (contrary to the claim) the newest
frame's snapshot itself is drawn, at alpha (length - 1) / length *
opacity, whenever the post-append buffer holds at least two entries. -/
theorem C6_amended_trails_draw_loop (buf : List PoseVisualizer.Snap) (pose : Pose)
    (minConfidence : ℚ) (color : String) (size opacity : ℚ) :
    (∀ op ∈ (PoseVisualizer.drawTrails buf pose minConfidence color size opacity).2,
      ∃ t, 1 ≤ t ∧
        t < (PoseVisualizer.drawTrails buf pose minConfidence color size opacity).1.length ∧
        ∃ p ∈ (PoseVisualizer.drawTrails buf pose minConfidence color size opacity).1.getD t [],
          ∃ rgb, PoseVisualizer.hexToRgb color = some rgb ∧
            op = DrawOp.circleFill p.1 p.2 (size * (1/2)) rgb.r rgb.g rgb.b
              ((t : ℚ) /
                ((PoseVisualizer.drawTrails buf pose minConfidence color size opacity).1.length : ℚ)
                * opacity)) ∧
      (∀ rgb, PoseVisualizer.hexToRgb color = some rgb →
        2 ≤ (PoseVisualizer.drawTrails buf pose minConfidence color size opacity).1.length →
        ∀ p ∈ PoseVisualizer.trailSnapshot pose minConfidence,
          DrawOp.circleFill p.1 p.2 (size * (1/2)) rgb.r rgb.g rgb.b
            ((((PoseVisualizer.drawTrails buf pose minConfidence color size opacity).1.length
                - 1 : ℕ) : ℚ) /
              ((PoseVisualizer.drawTrails buf pose minConfidence color size opacity).1.length : ℚ)
              * opacity)
            ∈ (PoseVisualizer.drawTrails buf pose minConfidence color size opacity).2) := by
  have hfst : (PoseVisualizer.drawTrails buf pose minConfidence color size opacity).1
      = PoseVisualizer.trailPush buf (PoseVisualizer.trailSnapshot pose minConfidence) := rfl
  have hsnd : (PoseVisualizer.drawTrails buf pose minConfidence color size opacity).2
      = PoseVisualizer.drawTrailsOps
          (PoseVisualizer.trailPush buf (PoseVisualizer.trailSnapshot pose minConfidence))
          color size opacity := rfl
  rw [hfst, hsnd]
  set buf2 := PoseVisualizer.trailPush buf (PoseVisualizer.trailSnapshot pose minConfidence)
    with hbuf2
  constructor
  · intro op hop
    simp only [PoseVisualizer.drawTrailsOps, List.mem_flatMap] at hop
    obtain ⟨t, ht, p, hp, hin⟩ := hop
    rw [mem_range_drop_one] at ht
    rcases hrgb : PoseVisualizer.hexToRgb color with _ | rgb
    · rw [hrgb] at hin
      simp at hin
    · rw [hrgb] at hin
      simp only [List.mem_singleton] at hin
      exact ⟨t, ht.1, ht.2, p, hp, rgb, rfl, hin⟩
  · intro rgb hrgb hlen p hp
    obtain ⟨pre, hpre⟩ := trailPush_concat buf (PoseVisualizer.trailSnapshot pose minConfidence)
    rw [← hbuf2] at hpre
    have hlenpre : buf2.length = pre.length + 1 := by
      rw [hpre, List.length_append, List.length_singleton]
    simp only [PoseVisualizer.drawTrailsOps, List.mem_flatMap]
    refine ⟨buf2.length - 1, ?_, p, ?_, ?_⟩
    · rw [mem_range_drop_one]
      omega
    · have : buf2.getD (buf2.length - 1) [] = PoseVisualizer.trailSnapshot pose minConfidence := by
        rw [hlenpre, hpre, Nat.add_sub_cancel]
        exact getD_concat_self pre _
      rw [this]
      exact hp
    · rw [hrgb]
      exact List.mem_singleton_self _

/-- C6 amended witness: on the concrete one-entry buffer and the
confident keypoint at (5, 7), the newest snapshot point is drawn. -/
theorem C6_amended_trails_draw_loop_witness :
    DrawOp.circleFill 5 7 (10 * (1/2)) 255 0 0
      ((((PoseVisualizer.drawTrails [[(0, 0)]] onePointPose (1/10) "#ff0000" 10 80).1.length
          - 1 : ℕ) : ℚ) /
        (((PoseVisualizer.drawTrails [[(0, 0)]] onePointPose (1/10) "#ff0000" 10 80).1.length : ℕ) : ℚ)
        * 80)
      ∈ (PoseVisualizer.drawTrails [[(0, 0)]] onePointPose (1/10) "#ff0000" 10 80).2 := by
  have hsnap : PoseVisualizer.trailSnapshot onePointPose (1/10) = [((5 : ℚ), (7 : ℚ))] := by
    norm_num [PoseVisualizer.trailSnapshot, onePointPose]
  have hlen : 2 ≤ (PoseVisualizer.drawTrails [[(0, 0)]] onePointPose (1/10) "#ff0000" 10 80).1.length := by
    have : (PoseVisualizer.drawTrails [[(0, 0)]] onePointPose (1/10) "#ff0000" 10 80).1
        = PoseVisualizer.trailPush [[(0, 0)]] (PoseVisualizer.trailSnapshot onePointPose (1/10)) := rfl
    rw [this, hsnap]
    norm_num [PoseVisualizer.trailPush, PoseVisualizer.trailCap]
  exact (C6_amended_trails_draw_loop [[(0, 0)]] onePointPose (1/10) "#ff0000" 10 80).2
    ⟨255, 0, 0⟩ (by decide) hlen ((5 : ℚ), (7 : ℚ)) (by rw [hsnap]; exact List.mem_singleton_self _)

/- Counter-threaded map membership lemmas. -/

lemma mapK_mem_back {α β : Type} (f : ℕ → α → β × ℕ) :
    ∀ (l : List α) (k : ℕ) (b : β), b ∈ (mapK f k l).1 → ∃ a ∈ l, ∃ k', b = (f k' a).1 := by
  intro l
  induction l with
  | nil => intro k b h; simp [mapK] at h
  | cons a as ih =>
    intro k b h
    have hred : (mapK f k (a :: as)).1 = (f k a).1 :: (mapK f (f k a).2 as).1 := rfl
    rw [hred, List.mem_cons] at h
    rcases h with rfl | h
    · exact ⟨a, List.mem_cons_self _ _, k, rfl⟩
    · obtain ⟨a', ha', k', hb⟩ := ih _ _ h
      exact ⟨a', List.mem_cons_of_mem _ ha', k', hb⟩

lemma mapK_mem_forward {α β : Type} (f : ℕ → α → β × ℕ) :
    ∀ (l : List α) (k : ℕ) (a : α), a ∈ l → ∃ k', (f k' a).1 ∈ (mapK f k l).1 := by
  intro l
  induction l with
  | nil => intro k a h; simp at h
  | cons x xs ih =>
    intro k a h
    have hred : (mapK f k (x :: xs)).1 = (f k x).1 :: (mapK f (f k x).2 xs).1 := rfl
    rw [List.mem_cons] at h
    rcases h with rfl | h
    · exact ⟨k, by rw [hred]; exact List.mem_cons_self _ _⟩
    · obtain ⟨k', hmem⟩ := ih (f k x).2 a h
      exact ⟨k', by rw [hred]; exact List.mem_cons_of_mem _ hmem⟩

/- Overlay firework helper lemmas. -/

lemma sparkUpdate_life (env : Env) (k : ℕ) (s : Spark) :
    (Spark.update env k s).1.life = s.life - s.decay * (7/10) := rfl

lemma sparkUpdate_decay (env : Env) (k : ℕ) (s : Spark) :
    (Spark.update env k s).1.decay = s.decay := rfl

lemma fwUpdate_mem_back (env : Env) (k : ℕ) (sparks : List Spark) (s' : Spark)
    (h : s' ∈ (Firework.update env k sparks).1) :
    ∃ s ∈ sparks, s'.life = s.life - s.decay * (7/10) ∧ s'.decay = s.decay ∧ 0 < s'.life := by
  have hred : (Firework.update env k sparks).1 =
      ((mapK (Spark.update env) k sparks).1).filter (fun s => !s.isDead) := rfl
  rw [hred, List.mem_filter] at h
  obtain ⟨hmem, halive⟩ := h
  have hpos : 0 < s'.life := by
    simp only [Spark.isDead, Bool.not_eq_eq_eq_not, Bool.not_true, decide_eq_false_iff_not,
      not_le] at halive
    exact halive
  obtain ⟨s, hs, k', hb⟩ := mapK_mem_back (Spark.update env) sparks k s' hmem
  subst hb
  exact ⟨s, hs, sparkUpdate_life env k' s, sparkUpdate_decay env k' s, hpos⟩

lemma fwUpdate_mem_forward (env : Env) (k : ℕ) (sparks : List Spark) (s : Spark)
    (hs : s ∈ sparks) (halive : 0 < s.life - s.decay * (7/10)) :
    ∃ s' ∈ (Firework.update env k sparks).1,
      s'.life = s.life - s.decay * (7/10) ∧ s'.decay = s.decay := by
  obtain ⟨k', hmem⟩ := mapK_mem_forward (Spark.update env) sparks k s hs
  have hred : (Firework.update env k sparks).1 =
      ((mapK (Spark.update env) k sparks).1).filter (fun s => !s.isDead) := rfl
  refine ⟨(Spark.update env k' s).1, ?_, sparkUpdate_life env k' s, sparkUpdate_decay env k' s⟩
  rw [hred, List.mem_filter]
  refine ⟨hmem, ?_⟩
  simp only [Spark.isDead, Bool.not_eq_eq_eq_not, Bool.not_true, decide_eq_false_iff_not, not_le]
  rw [sparkUpdate_life env k' s]
  exact halive

lemma fwIter_succ (env : Env) (n k : ℕ) (sparks : List Spark) :
    Firework.iter env (n + 1) k sparks =
      Firework.iter env n (Firework.update env k sparks).2 (Firework.update env k sparks).1 := rfl

lemma fwIter_mem_back (env : Env) :
    ∀ (n k : ℕ) (sparks : List Spark) (s' : Spark), s' ∈ (Firework.iter env n k sparks).1 →
      ∃ s ∈ sparks, s'.life = Spark.lifeAfter n s ∧ s'.decay = s.decay ∧
        (1 ≤ n → 0 < s'.life) := by
  intro n
  induction n with
  | zero =>
    intro k sparks s' h
    refine ⟨s', h, ?_, rfl, fun hn => absurd hn (by omega)⟩
    simp [Spark.lifeAfter]
  | succ n ih =>
    intro k sparks s' h
    rw [fwIter_succ] at h
    obtain ⟨su, hsu, hlifeu, hdecayu, halivu⟩ := ih _ _ s' h
    obtain ⟨s, hsmem, hlife0, hdecay0, hpos0⟩ := fwUpdate_mem_back env k sparks su hsu
    refine ⟨s, hsmem, ?_, by rw [hdecayu, hdecay0], ?_⟩
    · rw [hlifeu]
      unfold Spark.lifeAfter
      rw [hlife0, hdecay0]
      push_cast
      ring
    · intro _
      rcases Nat.eq_zero_or_pos n with rfl | hn

      · have : s'.life = su.life := by
          rw [hlifeu]
          simp [Spark.lifeAfter]
        rw [this]
        exact hpos0
      · exact halivu hn

lemma lifeAfter_one_pos (s : Spark) (n : ℕ) (hd : 0 ≤ s.decay)
    (hpos : 0 < Spark.lifeAfter (n + 1) s) : 0 < s.life - s.decay * (7/10) := by
  unfold Spark.lifeAfter at hpos
  have hcast : (1 : ℚ) ≤ ((n + 1 : ℕ) : ℚ) := by
    push_cast
    have : (0 : ℚ) ≤ (n : ℚ) := Nat.cast_nonneg n
    linarith
  nlinarith

lemma fwIter_mem_forward (env : Env) :
    ∀ (n k : ℕ) (sparks : List Spark) (s : Spark), s ∈ sparks → 0 ≤ s.decay →
      0 < Spark.lifeAfter n s →
      ∃ s' ∈ (Firework.iter env n k sparks).1,
        s'.life = Spark.lifeAfter n s ∧ s'.decay = s.decay := by
  intro n
  induction n with
  | zero =>
    intro k sparks s hs _ _
    refine ⟨s, hs, ?_, rfl⟩
    simp [Spark.lifeAfter]
  | succ n ih =>
    intro k sparks s hs hd hpos
    have h1 : 0 < s.life - s.decay * (7/10) := lifeAfter_one_pos s n hd hpos
    obtain ⟨s1, hs1mem, hs1life, hs1decay⟩ := fwUpdate_mem_forward env k sparks s hs h1
    have hlift : Spark.lifeAfter n s1 = Spark.lifeAfter (n + 1) s := by
      unfold Spark.lifeAfter
      rw [hs1life, hs1decay]
      push_cast
      ring
    obtain ⟨s', hmem, hlife, hdecay⟩ := ih _ _ s1 hs1mem (by rw [hs1decay]; exact hd)
      (by rw [hlift]; exact hpos)
    rw [fwIter_succ]
    exact ⟨s', hmem, by rw [hlife, hlift], by rw [hdecay, hs1decay]⟩

/-- C4: for a burst whose sparks all start at life 255 with decay rate
at least 3 (the constructor draws decay from random(3, 6)), isDead
becomes true within 122 update calls - the bound 255 / (3 * 0.7)
rounded up, proportional to initial life over the decay rate - and
isDead is never true before every spark of the burst has individually
reached life at or below 0. -/
theorem C4_burst_death_bound (env : Env) (k : ℕ) (sparks : List Spark)
    (hlife : ∀ s ∈ sparks, s.life = 255) (hdecay : ∀ s ∈ sparks, 3 ≤ s.decay) :
    (∀ n, 122 ≤ n → Firework.isDead (Firework.iter env n k sparks).1 = true) ∧
      (∀ n, Firework.isDead (Firework.iter env n k sparks).1 = true →
        ∀ s ∈ sparks, Spark.lifeAfter n s ≤ 0) := by
  constructor
  · intro n hn
    have hempty : (Firework.iter env n k sparks).1 = [] := by
      rw [List.eq_nil_iff_forall_not_mem]
      intro s' hmem
      obtain ⟨s, hs, hlifeEq, hdecayEq, halive⟩ := fwIter_mem_back env n k sparks s' hmem
      have hpos : 0 < s'.life := halive (by omega)
      rw [hlifeEq] at hpos
      unfold Spark.lifeAfter at hpos
      rw [hlife s hs] at hpos
      have hd3 : 3 ≤ s.decay := hdecay s hs
      have hcast : (122 : ℚ) ≤ (n : ℚ) := by exact_mod_cast hn
      nlinarith
    rw [hempty]
    rfl
  · intro n hdead s hs
    by_contra hpos'
    push_neg at hpos'
    obtain ⟨s', hmem, -, -⟩ := fwIter_mem_forward env n k sparks s hs
      (le_trans (by norm_num) (hdecay s hs)) hpos'
    simp only [Firework.isDead, beq_iff_eq, List.length_eq_zero] at hdead
    rw [hdead] at hmem
    simp at hmem

/-- C4 witness: a one-spark burst at life 255 and decay 3 is dead after
122 updates, and its spark's life is then at or below zero. -/
theorem C4_burst_death_bound_witness :
    Firework.isDead (Firework.iter constEnv 122 0 [demoSpark]).1 = true ∧
      Spark.lifeAfter 122 demoSpark ≤ 0 := by
  have h := C4_burst_death_bound constEnv 0 [demoSpark]
    (by intro s hs; rw [List.mem_singleton] at hs; subst hs; rfl)
    (by intro s hs; rw [List.mem_singleton] at hs; subst hs; norm_num [demoSpark])
  exact ⟨h.1 122 (le_refl _),
    h.2 122 (h.1 122 (le_refl _)) demoSpark (List.mem_singleton_self _)⟩

/- Unknown-mode dispatch helper lemmas. -/

lemma visualizeStep_unknown (env : Env) (connections : List (ℕ × ℕ)) (minConfidence : ℚ)
    (acc : VisState × List DrawOp × ℕ) (ip : ℕ × Pose)
    (h : acc.1.paintMode ∉
      (["keypoints", "skeleton", "trails", "circles", "fireworks"] : List String)) :
    PoseVisualizer.visualizeStep env connections minConfidence acc ip = acc := by
  obtain ⟨st, ops, k⟩ := acc
  simp only [List.mem_cons, List.not_mem_nil, or_false, not_or] at h
  obtain ⟨h1, h2, h3, h4, h5⟩ := h
  unfold PoseVisualizer.visualizeStep
  dsimp only
  rw [if_neg h1, if_neg h2, if_neg h3, if_neg h4, if_neg h5]

lemma foldl_visualizeStep_unknown (env : Env) (connections : List (ℕ × ℕ))
    (minConfidence : ℚ) (l : List (ℕ × Pose)) :
    ∀ (st : VisState) (ops : List DrawOp) (k : ℕ),
      st.paintMode ∉ (["keypoints", "skeleton", "trails", "circles", "fireworks"] : List String) →
      l.foldl (PoseVisualizer.visualizeStep env connections minConfidence) (st, ops, k)
        = (st, ops, k) := by
  induction l with
  | nil => intro st ops k _; rfl
  | cons ip l ih =>
    intro st ops k h
    rw [List.foldl_cons, visualizeStep_unknown env connections minConfidence (st, ops, k) ip h]
    exact ih st ops k h

lemma visualize_unknown_mode (env : Env) (k : ℕ) (st : VisState) (poses : List Pose)
    (connections : List (ℕ × ℕ)) (minConfidence : ℚ)
    (h : st.paintMode ∉
      (["keypoints", "skeleton", "trails", "circles", "fireworks"] : List String)) :
    PoseVisualizer.visualize env k st poses connections minConfidence =
      ({ st with fireworks := (FireworksManager.updateAndDraw env k st.fireworks).1 },
       (FireworksManager.updateAndDraw env k st.fireworks).2.1,
       (FireworksManager.updateAndDraw env k st.fireworks).2.2) := by
  unfold PoseVisualizer.visualize
  by_cases hp : poses.length = 0
  · rw [if_pos hp]
  · rw [if_neg hp,
      foldl_visualizeStep_unknown env connections minConfidence poses.enum st [] k h]
    rfl

lemma updateParticles_unknown (env : Env) (k : ℕ) (g : GlobalState)
    (h : g.vis.paintMode ∉ (["particles", "fireworks", "smoke"] : List String)) :
    updateParticles env k g = (g, [], k) := by
  simp only [List.mem_cons, List.not_mem_nil, or_false, not_or] at h
  obtain ⟨h1, h2, h3⟩ := h
  unfold updateParticles
  rw [if_neg h1, if_neg h2, if_neg h3]

/-- C8 counterexample: with the unknown paint mode string "bogus" but a
live spark left in the fireworks overlay, a visualize call on one pose
still emits draw operations - the frame is not free of visual output as
the claim states. -/
theorem C8_unknown_mode_draws_counterexample :
    (PoseVisualizer.visualize constEnv 0 bogusModeState [onePointPose] [] (1/10)).2.1 ≠ [] := by
  rw [visualize_unknown_mode constEnv 0 bogusModeState [onePointPose] [] (1/10) (by decide)]
  show (FireworksManager.updateAndDraw constEnv 0 [[demoSpark]]).2.1 ≠ []
  have h1 : (FireworksManager.updateAndDraw constEnv 0 [[demoSpark]]).2.1
      = Firework.draw constEnv (Firework.update constEnv 0 [demoSpark]).1 ++ [] := rfl
  have h2 : (Firework.update constEnv 0 [demoSpark]).1
      = List.filter (fun s => !s.isDead) [(Spark.update constEnv 0 demoSpark).1] := rfl
  have h3 : ¬ ((Spark.update constEnv 0 demoSpark).1.life ≤ 0) := by
    rw [sparkUpdate_life]
    norm_num [demoSpark]
  have hdead : (Spark.update constEnv 0 demoSpark).1.isDead = false := by
    simp [Spark.isDead, h3]
  have h4 : List.filter (fun s => !s.isDead) [(Spark.update constEnv 0 demoSpark).1]
      = [(Spark.update constEnv 0 demoSpark).1] := by
    simp [List.filter_cons, hdead]
  rw [h1, h2, h4]
  simp [Firework.draw, Spark.draw]

/-- C8 amended: when the paint mode is an unknown string, the per-pose
dispatch of visualize draws nothing and changes no state - the whole
call reduces to advancing and drawing the always-run fireworks overlay,
so the frame is draw-free exactly when the overlay is empty - and
updateParticles likewise draws nothing and changes nothing; both
functions are total, so no exception is possible. -/
theorem C8_unknown_mode_amended (env : Env) (k : ℕ) (st : VisState) (poses : List Pose)
    (connections : List (ℕ × ℕ)) (minConfidence : ℚ) (g : GlobalState)
    (hst : st.paintMode ∉
      (["keypoints", "skeleton", "trails", "circles", "fireworks"] : List String))
    (hg : g.vis.paintMode ∉ (["particles", "fireworks", "smoke"] : List String)) :
    (PoseVisualizer.visualize env k st poses connections minConfidence =
      ({ st with fireworks := (FireworksManager.updateAndDraw env k st.fireworks).1 },
       (FireworksManager.updateAndDraw env k st.fireworks).2.1,
       (FireworksManager.updateAndDraw env k st.fireworks).2.2)) ∧
      (st.fireworks = [] →
        (PoseVisualizer.visualize env k st poses connections minConfidence).2.1 = []) ∧
      updateParticles env k g = (g, [], k) := by
  refine ⟨visualize_unknown_mode env k st poses connections minConfidence hst, ?_,
    updateParticles_unknown env k g hg⟩
  intro hfw
  rw [visualize_unknown_mode env k st poses connections minConfidence hst, hfw]
  rfl

/-- C8 amended witness: at the concrete unknown mode "bogus", visualize
reduces to the overlay call and updateParticles is the identity. -/
theorem C8_unknown_mode_amended_witness :
    (PoseVisualizer.visualize constEnv 0 bogusModeState [] [] (1/10) =
      ({ bogusModeState with
          fireworks := (FireworksManager.updateAndDraw constEnv 0 bogusModeState.fireworks).1 },
       (FireworksManager.updateAndDraw constEnv 0 bogusModeState.fireworks).2.1,
       (FireworksManager.updateAndDraw constEnv 0 bogusModeState.fireworks).2.2)) ∧
      updateParticles constEnv 0 bogusModeGlobal = (bogusModeGlobal, [], 0) := by
  have h := C8_unknown_mode_amended constEnv 0 bogusModeState [] [] (1/10) bogusModeGlobal
    (by decide) (by decide)
  exact ⟨h.1, h.2.2⟩

/- Paint particle decay helper lemmas. -/

lemma pparticleUpdate_inactive (env : Env) (p : PParticle) (h : p.active = false) :
    PParticle.update env p = p := by
  simp [PParticle.update, h]

lemma pparticleUpdate_fields (env : Env) (p : PParticle) (h : p.active = true) :
    (PParticle.update env p).life = p.life - 3/1000 ∧
      (PParticle.update env p).active = (if p.life - 3/1000 ≤ 0 then false else true) := by
  constructor <;> simp [PParticle.update, h]

lemma updateList_mem_back (env : Env) (l : List PParticle) (p' : PParticle)
    (h : p' ∈ ParticleEmitter.updateList env l) :
    ∃ p ∈ l, p'.life = p.life - 3/1000 ∧ 0 < p'.life := by
  unfold ParticleEmitter.updateList at h
  rw [List.mem_filter] at h
  obtain ⟨hmem, hact⟩ := h
  rw [List.mem_map] at hmem
  obtain ⟨p, hp, rfl⟩ := hmem
  by_cases hpa : p.active = true
  · obtain ⟨hl, ha⟩ := pparticleUpdate_fields env p hpa
    refine ⟨p, hp, hl, ?_⟩
    rw [ha] at hact
    by_cases hle : p.life - 3/1000 ≤ 0
    · rw [if_pos hle] at hact
      simp at hact
    · rw [hl]
      linarith [not_le.mp hle]
  · have hpa' : p.active = false := by simpa using hpa
    rw [pparticleUpdate_inactive env p hpa'] at hact
    rw [hpa'] at hact
    simp at hact

lemma emitterIter_mem_back (env : Env) :
    ∀ (m : ℕ) (l : List PParticle) (p' : PParticle),
      p' ∈ (ParticleEmitter.updateList env)^[m] l → 1 ≤ m →
      ∃ p ∈ l, p'.life = p.life - (m : ℚ) * (3/1000) ∧ 0 < p'.life := by
  intro m
  induction m with
  | zero => intro l p' _ h1; omega
  | succ m ih =>
    intro l p' hmem _
    rw [Function.iterate_succ_apply] at hmem
    rcases Nat.eq_zero_or_pos m with rfl | hm
    · rw [Function.iterate_zero_apply] at hmem
      obtain ⟨p, hp, hl, hpos⟩ := updateList_mem_back env l p' hmem
      refine ⟨p, hp, ?_, hpos⟩
      rw [hl]
      push_cast
      ring
    · obtain ⟨q, hq, hql, hqpos⟩ := ih (ParticleEmitter.updateList env l) p' hmem hm
      obtain ⟨p, hp, hpl, -⟩ := updateList_mem_back env l q hq
      refine ⟨p, hp, ?_, hqpos⟩
      rw [hql, hpl]
      push_cast
      ring

lemma updateList_nil (env : Env) : ParticleEmitter.updateList env [] = [] := rfl

lemma emitterIter_empty (env : Env) (l : List PParticle) (hlife : ∀ p ∈ l, p.life ≤ 1)
    (n : ℕ) (hn : 334 ≤ n) : (ParticleEmitter.updateList env)^[n] l = [] := by
  have h334 : (ParticleEmitter.updateList env)^[334] l = [] := by
    rw [List.eq_nil_iff_forall_not_mem]
    intro p' hmem
    obtain ⟨p, hp, hl, hpos⟩ := emitterIter_mem_back env 334 l p' hmem (by omega)
    have hple := hlife p hp
    rw [hl] at hpos
    have hc : ((334 : ℕ) : ℚ) * (3/1000) = 501/500 := by push_cast; norm_num
    rw [hc] at hpos
    linarith
  have hsplit : n = (n - 334) + 334 := by omega
  rw [hsplit, Function.iterate_add_apply, h334, Function.iterate_fixed (updateList_nil env)]

lemma psysIter_map (env : Env) :
    ∀ (n : ℕ) (emitters : List (List PParticle)),
      (ParticleSystem.update env)^[n] emitters =
        emitters.map ((ParticleEmitter.updateList env)^[n]) := by
  intro n
  induction n with
  | zero => intro emitters; simp
  | succ n ih =>
    intro emitters
    rw [Function.iterate_succ_apply, ih, Function.iterate_succ]
    unfold ParticleSystem.update
    rw [List.map_map]

/- Smoke decay helper lemmas. -/

lemma smokeStep_mem_back (env : Env) (w : Vec2) (ps : List SmokeParticle) (p' : SmokeParticle)
    (h : p' ∈ smokeFrameStep env w ps) :
    ∃ p ∈ ps, p'.lifespan = p.lifespan - 2 ∧ 0 ≤ p'.lifespan := by
  unfold smokeFrameStep SmokeSystem.run at h
  dsimp only at h
  rw [List.mem_filter] at h
  obtain ⟨hmem, hdead⟩ := h
  rw [List.map_map, List.mem_map] at hmem
  obtain ⟨q, hq, rfl⟩ := hmem
  unfold SmokeSystem.applyForce at hq
  rw [List.mem_map] at hq
  obtain ⟨p, hp, rfl⟩ := hq
  refine ⟨p, hp, rfl, ?_⟩
  simp only [SmokeParticle.isDead, Bool.not_eq_eq_eq_not, Bool.not_true,
    decide_eq_false_iff_not, not_lt] at hdead
  exact hdead

lemma smokeStep_nil (env : Env) (w : Vec2) : smokeFrameStep env w [] = [] := rfl

lemma smokeIter_mem_back (env : Env) (w : Vec2) :
    ∀ (m : ℕ) (ps : List SmokeParticle) (p' : SmokeParticle),
      p' ∈ (smokeFrameStep env w)^[m] ps → 1 ≤ m →
      ∃ p ∈ ps, p'.lifespan = p.lifespan - 2 * (m : ℚ) ∧ 0 ≤ p'.lifespan := by
  intro m
  induction m with
  | zero => intro ps p' _ h1; omega
  | succ m ih =>
    intro ps p' hmem _
    rw [Function.iterate_succ_apply] at hmem
    rcases Nat.eq_zero_or_pos m with rfl | hm
    · rw [Function.iterate_zero_apply] at hmem
      obtain ⟨p, hp, hl, hpos⟩ := smokeStep_mem_back env w ps p' hmem
      refine ⟨p, hp, ?_, hpos⟩
      rw [hl]
      push_cast
      ring
    · obtain ⟨q, hq, hql, hqpos⟩ := ih (smokeFrameStep env w ps) p' hmem hm
      obtain ⟨p, hp, hpl, -⟩ := smokeStep_mem_back env w ps q hq
      refine ⟨p, hp, ?_, hqpos⟩
      rw [hql, hpl]
      push_cast
      ring

lemma smokeIter_empty (env : Env) (w : Vec2) (ps : List SmokeParticle)
    (hlife : ∀ p ∈ ps, p.lifespan ≤ 100) (n : ℕ) (hn : 51 ≤ n) :
    (smokeFrameStep env w)^[n] ps = [] := by
  have h51 : (smokeFrameStep env w)^[51] ps = [] := by
    rw [List.eq_nil_iff_forall_not_mem]
    intro p' hmem
    obtain ⟨p, hp, hl, hpos⟩ := smokeIter_mem_back env w 51 ps p' hmem (by omega)
    have hple := hlife p hp
    rw [hl] at hpos
    have hc : (2 : ℚ) * ((51 : ℕ) : ℚ) = 102 := by push_cast; norm_num
    rw [hc] at hpos
    linarith
  have hsplit : n = (n - 51) + 51 := by omega
  rw [hsplit, Function.iterate_add_apply, h51, Function.iterate_fixed (smokeStep_nil env w)]

/- Pooled fireworks decay helper lemmas. -/

lemma pooledUpdate_inactive (env : Env) (k : ℕ) (s : PooledSpark) (h : s.active = false) :
    PooledSpark.update env k s = (s, k) := by
  simp [PooledSpark.update, h]

lemma pooledUpdate_fields (env : Env) (k : ℕ) (s : PooledSpark) (h : s.active = true) :
    (PooledSpark.update env k s).1.life = s.life - s.decay * (7/10) ∧
      (PooledSpark.update env k s).1.decay = s.decay ∧
      (PooledSpark.update env k s).1.active =
        (if s.life - s.decay * (7/10) ≤ 0 then false else true) := by
  refine ⟨?_, ?_, ?_⟩ <;> simp [PooledSpark.update, h]

lemma pooledFwUpdate_mem_back (env : Env) (k : ℕ) (b : List PooledSpark) (s' : PooledSpark)
    (h : s' ∈ (PooledFirework.update env k b).1) :
    ∃ s ∈ b, s'.life = s.life - s.decay * (7/10) ∧ s'.decay = s.decay ∧ 0 < s'.life := by
  have hred : (PooledFirework.update env k b).1 =
      ((mapK (PooledSpark.update env) k b).1).filter (fun s => s.active) := rfl
  rw [hred, List.mem_filter] at h
  obtain ⟨hmem, hact⟩ := h
  obtain ⟨s, hs, k', hb⟩ := mapK_mem_back (PooledSpark.update env) b k s' hmem
  subst hb
  by_cases hsa : s.active = true
  · obtain ⟨hl, hd, ha⟩ := pooledUpdate_fields env k' s hsa
    refine ⟨s, hs, hl, hd, ?_⟩
    rw [ha] at hact
    by_cases hle : s.life - s.decay * (7/10) ≤ 0
    · rw [if_pos hle] at hact
      simp at hact
    · rw [hl]
      linarith [not_le.mp hle]
  · have hsa' : s.active = false := by simpa using hsa
    rw [pooledUpdate_inactive env k' s hsa'] at hact
    rw [hsa'] at hact
    simp at hact

lemma fwsysStep_mem_back (env : Env) (k : ℕ) (bursts : List (List PooledSpark))
    (b' : List PooledSpark) (h : b' ∈ (FireworksSystem.updateAndDraw env k bursts).1) :
    b' ≠ [] ∧ ∃ b ∈ bursts, ∃ k', b' = (PooledFirework.update env k' b).1 := by
  unfold FireworksSystem.updateAndDraw at h
  dsimp only at h
  rw [List.mem_filter] at h
  obtain ⟨hmem, hnd⟩ := h
  constructor
  · simp only [PooledFirework.isDead, Bool.not_eq_eq_eq_not, Bool.not_true, beq_eq_false_iff_ne,
      ne_eq, List.length_eq_zero] at hnd
    exact hnd
  · rw [List.mem_map] at hmem
    obtain ⟨pair, hpair, rfl⟩ := hmem
    obtain ⟨b, hb, k', hp⟩ := mapK_mem_back _ bursts k pair hpair
    exact ⟨b, hb, k', by rw [hp]⟩

lemma fwSysIter_succ (env : Env) (n k : ℕ) (bursts : List (List PooledSpark)) :
    fwSysIter env (n + 1) k bursts =
      fwSysIter env n (FireworksSystem.updateAndDraw env k bursts).2.2
        (FireworksSystem.updateAndDraw env k bursts).1 := rfl

lemma fwSysIter_mem_back (env : Env) :
    ∀ (n k : ℕ) (bursts : List (List PooledSpark)) (b' : List PooledSpark),
      b' ∈ (fwSysIter env n k bursts).1 → 1 ≤ n →
      b' ≠ [] ∧ ∀ s' ∈ b', ∃ b ∈ bursts, ∃ s ∈ b,
        s'.life = s.life - (n : ℚ) * (s.decay * (7/10)) ∧ s'.decay = s.decay ∧ 0 < s'.life := by
  intro n
  induction n with
  | zero => intro k bursts b' _ h1; omega
  | succ n ih =>
    intro k bursts b' hmem _
    rw [fwSysIter_succ] at hmem
    rcases Nat.eq_zero_or_pos n with rfl | hn
    · have hmem0 : b' ∈ (FireworksSystem.updateAndDraw env k bursts).1 := hmem
      obtain ⟨hne, b, hb, k', rfl⟩ := fwsysStep_mem_back env k bursts b' hmem0
      refine ⟨hne, ?_⟩
      intro s' hs'
      obtain ⟨s, hs, hl, hd, hpos⟩ := pooledFwUpdate_mem_back env k' b s' hs'
      refine ⟨b, hb, s, hs, ?_, hd, hpos⟩
      rw [hl]
      push_cast
      ring
    · obtain ⟨hne, hrel⟩ := ih _ _ b' hmem hn
      refine ⟨hne, ?_⟩
      intro s' hs'
      obtain ⟨bu, hbu, su, hsu, hul, hud, hupos⟩ := hrel s' hs'
      obtain ⟨-, b, hb, k', hbu'⟩ :=
        fwsysStep_mem_back env k bursts bu hbu
      subst hbu'
      obtain ⟨s, hs, hsl, hsd, -⟩ := pooledFwUpdate_mem_back env k' b su hsu
      refine ⟨b, hb, s, hs, ?_, by rw [hud, hsd], hupos⟩
      rw [hul, hsl, hsd]
      push_cast
      ring

lemma fwsysStep_nil (env : Env) (k : ℕ) :
    FireworksSystem.updateAndDraw env k ([] : List (List PooledSpark)) = ([], [], k) := rfl

lemma fwSysIter_nil (env : Env) : ∀ (m k : ℕ), fwSysIter env m k [] = ([], k) := by
  intro m
  induction m with
  | zero => intro k; rfl
  | succ m ih => intro k; rw [fwSysIter_succ, fwsysStep_nil]; exact ih k

lemma fwSysIter_add (env : Env) :
    ∀ (a b k : ℕ) (bursts : List (List PooledSpark)),
      fwSysIter env (a + b) k bursts =
        fwSysIter env b (fwSysIter env a k bursts).2 (fwSysIter env a k bursts).1 := by
  intro a
  induction a with
  | zero => intro b k bursts; rw [Nat.zero_add]; rfl
  | succ a ih =>
    intro b k bursts
    have hstep : a + 1 + b = (a + b) + 1 := by omega
    rw [hstep]
    rw [fwSysIter_succ, fwSysIter_succ, ih]

lemma fwSysIter_empty (env : Env) (k : ℕ) (bursts : List (List PooledSpark))
    (hinv : ∀ b ∈ bursts, ∀ s ∈ b, s.life ≤ 255 ∧ 3 ≤ s.decay) (n : ℕ) (hn : 122 ≤ n) :
    (fwSysIter env n k bursts).1 = [] := by
  have h122 : ∀ k', (fwSysIter env 122 k' bursts).1 = [] := by
    intro k'
    rw [List.eq_nil_iff_forall_not_mem]
    intro b' hmem
    obtain ⟨hne, hrel⟩ := fwSysIter_mem_back env 122 k' bursts b' hmem (by omega)
    obtain ⟨s', hs'⟩ := List.exists_mem_of_ne_nil b' hne
    obtain ⟨b, hb, s, hs, hl, hd, hpos⟩ := hrel s' hs'
    obtain ⟨hle, hd3⟩ := hinv b hb s hs
    rw [hl] at hpos
    have hc : ((122 : ℕ) : ℚ) = 122 := by push_cast; ring
    rw [hc] at hpos
    nlinarith
  have hsplit : n = 122 + (n - 122) := by omega
  rw [hsplit, fwSysIter_add, h122, fwSysIter_nil]

/- Zero-pose frame commutation lemmas. -/

lemma noPoseIter_succ (env : Env) (n k : ℕ) (g : GlobalState) :
    noPoseIter env (n + 1) k g =
      noPoseIter env n (noPoseFrame env k g).2.2 (noPoseFrame env k g).1 := rfl

lemma noPoseFrame_particles (env : Env) (k : ℕ) (g : GlobalState)
    (h : g.vis.paintMode = "particles") :
    noPoseFrame env k g = ({ g with emitters := ParticleSystem.update env g.emitters },
      ParticleSystem.draw (ParticleSystem.update env g.emitters), k) := by
  unfold noPoseFrame paintOnCanvasNoPoses updateParticles
  rw [if_pos h]

lemma noPoseFrame_fireworks (env : Env) (k : ℕ) (g : GlobalState)
    (h : g.vis.paintMode = "fireworks") :
    noPoseFrame env k g = ({ g with fwBursts := (FireworksSystem.updateAndDraw env k g.fwBursts).1 },
      (FireworksSystem.updateAndDraw env k g.fwBursts).2.1,
      (FireworksSystem.updateAndDraw env k g.fwBursts).2.2) := by
  unfold noPoseFrame paintOnCanvasNoPoses updateParticles
  rw [if_neg (by rw [h]; decide), if_pos h]

lemma noPoseFrame_smoke (env : Env) (k : ℕ) (g : GlobalState)
    (h : g.vis.paintMode = "smoke") :
    (noPoseFrame env k g).1 = { g with smoke := smokeFrameStep env g.smokeWind g.smoke } ∧
      (noPoseFrame env k g).2.2 = k := by
  unfold noPoseFrame paintOnCanvasNoPoses updateParticles
  rw [if_neg (by rw [h]; decide), if_neg (by rw [h]; decide), if_pos h]
  exact ⟨rfl, rfl⟩

lemma noPoseFrame_vis (env : Env) (k : ℕ) (g : GlobalState) :
    (noPoseFrame env k g).1.vis = g.vis := by
  unfold noPoseFrame paintOnCanvasNoPoses updateParticles
  split_ifs <;> rfl

lemma noPoseIter_vis (env : Env) :
    ∀ (n k : ℕ) (g : GlobalState), (noPoseIter env n k g).1.vis = g.vis := by
  intro n
  induction n with
  | zero => intro k g; rfl
  | succ n ih =>
    intro k g
    rw [noPoseIter_succ, ih, noPoseFrame_vis]

lemma noPoseIter_particles (env : Env) :
    ∀ (n k : ℕ) (g : GlobalState), g.vis.paintMode = "particles" →
      (noPoseIter env n k g).1.emitters = (ParticleSystem.update env)^[n] g.emitters := by
  intro n
  induction n with
  | zero => intro k g _; rfl
  | succ n ih =>
    intro k g h
    rw [noPoseIter_succ, noPoseFrame_particles env k g h]
    rw [ih k { g with emitters := ParticleSystem.update env g.emitters } h,
      Function.iterate_succ_apply]

lemma noPoseIter_fireworks (env : Env) :
    ∀ (n k : ℕ) (g : GlobalState), g.vis.paintMode = "fireworks" →
      (noPoseIter env n k g).1.fwBursts = (fwSysIter env n k g.fwBursts).1 := by
  intro n
  induction n with
  | zero => intro k g _; rfl
  | succ n ih =>
    intro k g h
    rw [noPoseIter_succ, noPoseFrame_fireworks env k g h, fwSysIter_succ]
    exact ih _ { g with fwBursts := (FireworksSystem.updateAndDraw env k g.fwBursts).1 } h

lemma noPoseIter_smoke (env : Env) :
    ∀ (n k : ℕ) (g : GlobalState), g.vis.paintMode = "smoke" →
      (noPoseIter env n k g).1.smoke = (smokeFrameStep env g.smokeWind)^[n] g.smoke := by
  intro n
  induction n with
  | zero => intro k g _; rfl
  | succ n ih =>
    intro k g h
    obtain ⟨h1, h2⟩ := noPoseFrame_smoke env k g h
    rw [noPoseIter_succ, h1, h2]
    rw [ih k { g with smoke := smokeFrameStep env g.smokeWind g.smoke } h,
      Function.iterate_succ_apply]

lemma noPoseFrame_emitters_frozen (env : Env) (k : ℕ) (g : GlobalState)
    (h : g.vis.paintMode ≠ "particles") : (noPoseFrame env k g).1.emitters = g.emitters := by
  unfold noPoseFrame paintOnCanvasNoPoses updateParticles
  split_ifs with h1 h2 h3
  · exact absurd h1 h
  · rfl
  · rfl
  · rfl

lemma noPoseFrame_fwBursts_frozen (env : Env) (k : ℕ) (g : GlobalState)
    (h : g.vis.paintMode ≠ "fireworks") : (noPoseFrame env k g).1.fwBursts = g.fwBursts := by
  by_cases h1 : g.vis.paintMode = "particles"
  · rw [noPoseFrame_particles env k g h1]
  · by_cases h3 : g.vis.paintMode = "smoke"
    · rw [(noPoseFrame_smoke env k g h3).1]
    · unfold noPoseFrame paintOnCanvasNoPoses updateParticles
      rw [if_neg h1, if_neg h, if_neg h3]

lemma noPoseFrame_smoke_frozen (env : Env) (k : ℕ) (g : GlobalState)
    (h : g.vis.paintMode ≠ "smoke") : (noPoseFrame env k g).1.smoke = g.smoke := by
  by_cases h1 : g.vis.paintMode = "particles"
  · rw [noPoseFrame_particles env k g h1]
  · by_cases h2 : g.vis.paintMode = "fireworks"
    · rw [noPoseFrame_fireworks env k g h2]
    · unfold noPoseFrame paintOnCanvasNoPoses updateParticles
      rw [if_neg h1, if_neg h2, if_neg h]

lemma noPoseIter_emitters_frozen (env : Env) :
    ∀ (n k : ℕ) (g : GlobalState), g.vis.paintMode ≠ "particles" →
      (noPoseIter env n k g).1.emitters = g.emitters := by
  intro n
  induction n with
  | zero => intro k g _; rfl
  | succ n ih =>
    intro k g h
    rw [noPoseIter_succ, ih _ _ (by rw [noPoseFrame_vis]; exact h),
      noPoseFrame_emitters_frozen env k g h]

lemma noPoseIter_fwBursts_frozen (env : Env) :
    ∀ (n k : ℕ) (g : GlobalState), g.vis.paintMode ≠ "fireworks" →
      (noPoseIter env n k g).1.fwBursts = g.fwBursts := by
  intro n
  induction n with
  | zero => intro k g _; rfl
  | succ n ih =>
    intro k g h
    rw [noPoseIter_succ, ih _ _ (by rw [noPoseFrame_vis]; exact h),
      noPoseFrame_fwBursts_frozen env k g h]

lemma noPoseIter_smoke_frozen (env : Env) :
    ∀ (n k : ℕ) (g : GlobalState), g.vis.paintMode ≠ "smoke" →
      (noPoseIter env n k g).1.smoke = g.smoke := by
  intro n
  induction n with
  | zero => intro k g _; rfl
  | succ n ih =>
    intro k g h
    rw [noPoseIter_succ, ih _ _ (by rw [noPoseFrame_vis]; exact h),
      noPoseFrame_smoke_frozen env k g h]

lemma noPoseIter_id (env : Env) :
    ∀ (n k : ℕ) (g : GlobalState),
      g.vis.paintMode ∉ (["particles", "fireworks", "smoke"] : List String) →
      noPoseIter env n k g = (g, k) := by
  intro n
  induction n with
  | zero => intro k g _; rfl
  | succ n ih =>
    intro k g h
    have hframe : noPoseFrame env k g = (g, [], k) := updateParticles_unknown env k g h
    rw [noPoseIter_succ, hframe]
    exact ih k g h

/-- C7 counterexample: with the paint mode at "smoke" and one live burst
left in the standalone fireworks system, 200 consecutive zero-pose
frames leave that burst untouched: the fireworks engine neither fades
nor empties, contradicting the claim that every engine keeps decaying
and that all engines reach the empty state for large N. -/
theorem C7_other_engines_frozen_counterexample :
    (noPoseIter constEnv 200 0 smokeModeGlobal).1.fwBursts = [[demoPooledSpark]] ∧
      ([[demoPooledSpark]] : List (List PooledSpark)) ≠ [] := by
  constructor
  · rw [noPoseIter_fwBursts_frozen constEnv 200 0 smokeModeGlobal (by decide)]
    rfl
  · simp

/-- C7 amended: on zero-pose frames paintOnCanvas returns before any
engine call, and updateParticles advances exactly the engine selected
by the active paint mode. That engine decays to empty within a bounded
number of frames - paint particles within 334 frames (life at most 1,
decay 0.003), pooled fireworks within 122 frames (life at most 255,
decay rate at least 3, times 0.7), smoke within 51 frames (lifespan at
most 100, decay 2) - while every other engine, and the visualizer state
itself, stays exactly frozen; with an unrecognized mode nothing changes
at all. All steps are total functions, so no frame can throw. -/
theorem C7_zero_pose_frames_decay (env : Env) (k : ℕ) (g : GlobalState) :
    (g.vis.paintMode = "particles" → (∀ l ∈ g.emitters, ∀ p ∈ l, p.life ≤ 1) →
      ∀ n, 334 ≤ n → ∀ l ∈ (noPoseIter env n k g).1.emitters, l = ([] : List PParticle)) ∧
      (g.vis.paintMode = "fireworks" →
        (∀ b ∈ g.fwBursts, ∀ s ∈ b, s.life ≤ 255 ∧ 3 ≤ s.decay) →
        ∀ n, 122 ≤ n → (noPoseIter env n k g).1.fwBursts = []) ∧
      (g.vis.paintMode = "smoke" → (∀ p ∈ g.smoke, p.lifespan ≤ 100) →
        ∀ n, 51 ≤ n → (noPoseIter env n k g).1.smoke = []) ∧
      (g.vis.paintMode ∉ (["particles", "fireworks", "smoke"] : List String) →
        ∀ n, (noPoseIter env n k g).1 = g) ∧
      (∀ n, (noPoseIter env n k g).1.vis = g.vis) ∧
      (g.vis.paintMode ≠ "particles" → ∀ n, (noPoseIter env n k g).1.emitters = g.emitters) ∧
      (g.vis.paintMode ≠ "fireworks" → ∀ n, (noPoseIter env n k g).1.fwBursts = g.fwBursts) ∧
      (g.vis.paintMode ≠ "smoke" → ∀ n, (noPoseIter env n k g).1.smoke = g.smoke) := by
  refine ⟨?_, ?_, ?_, ?_, ?_, ?_, ?_, ?_⟩
  · intro h hlife n hn l hl
    rw [noPoseIter_particles env n k g h, psysIter_map] at hl
    rw [List.mem_map] at hl
    obtain ⟨l0, hl0, rfl⟩ := hl
    exact emitterIter_empty env l0 (hlife l0 hl0) n hn
  · intro h hinv n hn
    rw [noPoseIter_fireworks env n k g h]
    exact fwSysIter_empty env k g.fwBursts hinv n hn
  · intro h hlife n hn
    rw [noPoseIter_smoke env n k g h]
    exact smokeIter_empty env g.smokeWind g.smoke hlife n hn
  · intro h n
    rw [noPoseIter_id env n k g h]
  · intro n
    exact noPoseIter_vis env n k g
  · intro h n
    exact noPoseIter_emitters_frozen env n k g h
  · intro h n
    exact noPoseIter_fwBursts_frozen env n k g h
  · intro h n
    exact noPoseIter_smoke_frozen env n k g h

/-- C7 amended witness: in fireworks mode the one-burst state empties
within 122 zero-pose frames, and an unknown mode leaves the whole frame
state untouched. -/
theorem C7_zero_pose_frames_decay_witness :
    (noPoseIter constEnv 122 0 fireworksModeGlobal).1.fwBursts = [] ∧
      (noPoseIter constEnv 5 0 bogusModeGlobal).1 = bogusModeGlobal := by
  have h1 := (C7_zero_pose_frames_decay constEnv 0 fireworksModeGlobal).2.1
    (by decide)
    (by
      intro b hb s hs
      simp only [fireworksModeGlobal, List.mem_singleton] at hb
      subst hb
      rw [List.mem_singleton] at hs
      subst hs
      constructor <;> norm_num [demoPooledSpark])
    122 (le_refl _)
  have h2 := (C7_zero_pose_frames_decay constEnv 0 bogusModeGlobal).2.2.2.1
    (by decide) 5
  exact ⟨h1, h2⟩

end ImproterAI
